import Mathlib

/-!
Verification of the enspider page-classifier and scan-orchestrator core.

The definitions below are a shallow embedding of the TypeScript sources:
  * `src/classifier/similarity-calculator.ts`  (SimilarityCalculator)
  * `src/classifier/page-cluster.ts`           (PageClusterEngine)
  * `src/classifier/smart-sampler.ts`          (SmartSampler)
  * `src/checker/multi-viewport-scanner.ts`    (MultiViewportScanner)
  * `src/checker/error-detector.ts`            (ErrorDetector)

JavaScript numbers are modelled by `ℚ` (all similarity arithmetic is exact
ratios of small integers), JavaScript arrays by `List`, JavaScript `Map`s by
association lists preserving insertion order, and browser-dependent effects
by explicit environment records.
-/

namespace Enspider

/-- `DOMFingerprint` from `src/types.ts`: structural summary of a page. -/
structure DOMFingerprint where
  url : String
  tagSequence : List String
  classPatterns : List String
  depth : Nat
  breadth : Nat
  nodeCount : Nat
deriving DecidableEq, Repr, Inhabited

/-- `SimilarityCalculator.levenshteinDistance`: unit-cost edit distance
between two tag sequences.  The source fills the standard dynamic-programming
table `dp[i][j] = if eq then dp[i-1][j-1] else 1 + min(del, ins, sub)`;
this is that same recurrence written as a recursion. -/
def levenshteinDistance : List String → List String → Nat
  | [], s2 => s2.length
  | s1, [] => s1.length
  | a :: s1, b :: s2 =>
    if a = b then levenshteinDistance s1 s2
    else
      min (levenshteinDistance s1 (b :: s2) + 1)
        (min (levenshteinDistance (a :: s1) s2 + 1)
          (levenshteinDistance s1 s2 + 1))
termination_by s1 s2 => (s1.length, s2.length)

/-- `SimilarityCalculator.tagSequenceSimilarity`. -/
def tagSequenceSimilarity (fp1 fp2 : DOMFingerprint) : ℚ :=
  if fp1.tagSequence.length = 0 ∧ fp2.tagSequence.length = 0 then 1
  else if fp1.tagSequence.length = 0 ∨ fp2.tagSequence.length = 0 then 0
  else
    let maxLen := max fp1.tagSequence.length fp2.tagSequence.length
    let distance := levenshteinDistance fp1.tagSequence fp2.tagSequence
    1 - (distance : ℚ) / (maxLen : ℚ)

/-- The `1 - |x - y| / max(x, y)` closeness used (three times, inline) in
`SimilarityCalculator.structuralSimilarity` for depth, breadth and node
count, with the source's convention that two zeros give closeness 1. -/
def closeness (x y : Nat) : ℚ :=
  if x = 0 ∧ y = 0 then 1
  else 1 - |(x : ℚ) - (y : ℚ)| / ((max x y : ℕ) : ℚ)

/-- `SimilarityCalculator.structuralSimilarity`: weighted blend of depth,
breadth and node-count closeness plus class-pattern Jaccard overlap. -/
def structuralSimilarity (fp1 fp2 : DOMFingerprint) : ℚ :=
  let depthSim := closeness fp1.depth fp2.depth
  let breadthSim := closeness fp1.breadth fp2.breadth
  let nodeSim := closeness fp1.nodeCount fp2.nodeCount
  let classSet1 := fp1.classPatterns.toFinset
  let classSet2 := fp2.classPatterns.toFinset
  let inter := classSet1 ∩ classSet2
  let uni := classSet1 ∪ classSet2
  let classSim : ℚ := if uni.card = 0 then 1 else (inter.card : ℚ) / (uni.card : ℚ)
  depthSim * 0.3 + breadthSim * 0.2 + nodeSim * 0.2 + classSim * 0.3

/-- `SimilarityCalculator.calculate`: 60% tag sequence, 40% structure. -/
def calculate (fp1 fp2 : DOMFingerprint) : ℚ :=
  tagSequenceSimilarity fp1 fp2 * 0.6 + structuralSimilarity fp1 fp2 * 0.4

/-- `SimilarityCalculator.calculateAverageSimilarity`. -/
def calculateAverageSimilarity (fp : DOMFingerprint) (members : List DOMFingerprint) : ℚ :=
  if members = [] then 0
  else (members.map (calculate fp)).sum / (members.length : ℚ)

/-! ### Basic facts about the Levenshtein distance -/

theorem levenshteinDistance_self (s : List String) : levenshteinDistance s s = 0 := by
  induction s with
  | nil => simp [levenshteinDistance]
  | cons a s ih => simp [levenshteinDistance, ih]

theorem levenshteinDistance_comm (s t : List String) :
    levenshteinDistance s t = levenshteinDistance t s := by
  generalize h : s.length + t.length = n
  induction n using Nat.strong_induction_on generalizing s t with
  | _ n ih =>
    match s, t with
    | [], t => cases t <;> simp [levenshteinDistance]
    | a :: s, [] => simp [levenshteinDistance]
    | a :: s, b :: t =>
      subst h
      have h1 : levenshteinDistance s (b :: t) = levenshteinDistance (b :: t) s :=
        ih (s.length + (b :: t).length) (by simp only [List.length_cons]; omega) s (b :: t) rfl
      have h2 : levenshteinDistance (a :: s) t = levenshteinDistance t (a :: s) :=
        ih ((a :: s).length + t.length) (by simp only [List.length_cons]; omega) (a :: s) t rfl
      have h3 : levenshteinDistance s t = levenshteinDistance t s :=
        ih (s.length + t.length) (by simp only [List.length_cons]; omega) s t rfl
      by_cases hab : a = b
      · subst hab
        simp [levenshteinDistance, h3]
      · have hba : ¬ b = a := fun h => hab h.symm
        simp only [levenshteinDistance, if_neg hab, if_neg hba, h1, h2, h3]
        omega

theorem levenshteinDistance_le_max (s t : List String) :
    levenshteinDistance s t ≤ max s.length t.length := by
  generalize h : s.length + t.length = n
  induction n using Nat.strong_induction_on generalizing s t with
  | _ n ih =>
    match s, t with
    | [], t => simp [levenshteinDistance]
    | a :: s, [] => simp [levenshteinDistance]
    | a :: s, b :: t =>
      subst h
      have h3 : levenshteinDistance s t ≤ max s.length t.length :=
        ih (s.length + t.length) (by simp only [List.length_cons]; omega) s t rfl
      by_cases hab : a = b
      · simp only [levenshteinDistance, if_pos hab, List.length_cons]
        omega
      · simp only [levenshteinDistance, if_neg hab, List.length_cons]
        omega

/-! ### Range, symmetry and reflexivity of the similarity signals -/

theorem tagSequenceSimilarity_nonneg (fp1 fp2 : DOMFingerprint) :
    0 ≤ tagSequenceSimilarity fp1 fp2 := by
  unfold tagSequenceSimilarity
  split
  · norm_num
  · split
    · norm_num
    · rename_i h1 h2
      have hmax : 0 < max fp1.tagSequence.length fp2.tagSequence.length := by omega
      have hle := levenshteinDistance_le_max fp1.tagSequence fp2.tagSequence
      have hq : (levenshteinDistance fp1.tagSequence fp2.tagSequence : ℚ) ≤
          ((max fp1.tagSequence.length fp2.tagSequence.length : Nat) : ℚ) := by
        exact_mod_cast hle
      have hqpos : (0 : ℚ) < ((max fp1.tagSequence.length fp2.tagSequence.length : Nat) : ℚ) := by
        exact_mod_cast hmax
      have := div_le_one_of_le₀ hq (le_of_lt hqpos)
      linarith

theorem tagSequenceSimilarity_le_one (fp1 fp2 : DOMFingerprint) :
    tagSequenceSimilarity fp1 fp2 ≤ 1 := by
  unfold tagSequenceSimilarity
  split
  · norm_num
  · split
    · norm_num
    · rename_i h1 h2
      have hmax : 0 < max fp1.tagSequence.length fp2.tagSequence.length := by omega
      have hqpos : (0 : ℚ) < ((max fp1.tagSequence.length fp2.tagSequence.length : Nat) : ℚ) := by
        exact_mod_cast hmax
      have hd : (0 : ℚ) ≤ (levenshteinDistance fp1.tagSequence fp2.tagSequence : ℚ) := by
        positivity
      have := div_nonneg hd (le_of_lt hqpos)
      linarith

theorem tagSequenceSimilarity_comm (fp1 fp2 : DOMFingerprint) :
    tagSequenceSimilarity fp1 fp2 = tagSequenceSimilarity fp2 fp1 := by
  unfold tagSequenceSimilarity
  rw [levenshteinDistance_comm, Nat.max_comm]
  have hiff1 : (fp1.tagSequence.length = 0 ∧ fp2.tagSequence.length = 0) ↔
      (fp2.tagSequence.length = 0 ∧ fp1.tagSequence.length = 0) := and_comm
  have hiff2 : (fp1.tagSequence.length = 0 ∨ fp2.tagSequence.length = 0) ↔
      (fp2.tagSequence.length = 0 ∨ fp1.tagSequence.length = 0) := or_comm
  simp only [hiff1, hiff2]

theorem tagSequenceSimilarity_self (fp : DOMFingerprint) :
    tagSequenceSimilarity fp fp = 1 := by
  unfold tagSequenceSimilarity
  split
  · rfl
  · split
    · rename_i h1 h2
      omega
    · rename_i h1 h2
      have hmax : 0 < max fp.tagSequence.length fp.tagSequence.length := by omega
      rw [levenshteinDistance_self]
      simp

theorem closeness_nonneg (x y : Nat) : 0 ≤ closeness x y := by
  unfold closeness
  split
  · norm_num
  · rename_i h
    have hmax : 0 < max x y := by omega
    have hqpos : (0 : ℚ) < ((max x y : Nat) : ℚ) := by exact_mod_cast hmax
    have habs : |(x : ℚ) - (y : ℚ)| ≤ ((max x y : Nat) : ℚ) := by
      rw [abs_sub_le_iff]
      constructor
      · have : (x : ℚ) ≤ ((max x y : Nat) : ℚ) := by
          exact_mod_cast Nat.le_max_left x y
        have hy : (0 : ℚ) ≤ (y : ℚ) := by positivity
        linarith
      · have : (y : ℚ) ≤ ((max x y : Nat) : ℚ) := by
          exact_mod_cast Nat.le_max_right x y
        have hx : (0 : ℚ) ≤ (x : ℚ) := by positivity
        linarith
    have := div_le_one_of_le₀ habs (le_of_lt hqpos)
    linarith

theorem closeness_le_one (x y : Nat) : closeness x y ≤ 1 := by
  unfold closeness
  split
  · norm_num
  · rename_i h
    have hmax : 0 < max x y := by omega
    have hqpos : (0 : ℚ) < ((max x y : Nat) : ℚ) := by exact_mod_cast hmax
    have habs : (0 : ℚ) ≤ |(x : ℚ) - (y : ℚ)| := abs_nonneg _
    have := div_nonneg habs (le_of_lt hqpos)
    linarith

theorem closeness_comm (x y : Nat) : closeness x y = closeness y x := by
  unfold closeness
  rw [abs_sub_comm, Nat.max_comm]
  simp only [and_comm]

theorem closeness_self (x : Nat) : closeness x x = 1 := by
  unfold closeness
  split
  · rfl
  · rename_i h
    have hmax : 0 < max x x := by omega
    have hqpos : (0 : ℚ) < ((max x x : Nat) : ℚ) := by exact_mod_cast hmax
    rw [sub_self, abs_zero, zero_div, sub_zero]

theorem structuralSimilarity_nonneg (fp1 fp2 : DOMFingerprint) :
    0 ≤ structuralSimilarity fp1 fp2 := by
  unfold structuralSimilarity
  have h1 := closeness_nonneg fp1.depth fp2.depth
  have h2 := closeness_nonneg fp1.breadth fp2.breadth
  have h3 := closeness_nonneg fp1.nodeCount fp2.nodeCount
  have h4 : (0 : ℚ) ≤ (if (fp1.classPatterns.toFinset ∪ fp2.classPatterns.toFinset).card = 0
      then 1
      else ((fp1.classPatterns.toFinset ∩ fp2.classPatterns.toFinset).card : ℚ) /
        ((fp1.classPatterns.toFinset ∪ fp2.classPatterns.toFinset).card : ℚ)) := by
    split
    · norm_num
    · positivity
  simp only
  nlinarith [h1, h2, h3, h4]

theorem structuralSimilarity_le_one (fp1 fp2 : DOMFingerprint) :
    structuralSimilarity fp1 fp2 ≤ 1 := by
  unfold structuralSimilarity
  have h1 := closeness_le_one fp1.depth fp2.depth
  have h2 := closeness_le_one fp1.breadth fp2.breadth
  have h3 := closeness_le_one fp1.nodeCount fp2.nodeCount
  have h4 : (if (fp1.classPatterns.toFinset ∪ fp2.classPatterns.toFinset).card = 0
      then (1 : ℚ)
      else ((fp1.classPatterns.toFinset ∩ fp2.classPatterns.toFinset).card : ℚ) /
        ((fp1.classPatterns.toFinset ∪ fp2.classPatterns.toFinset).card : ℚ)) ≤ 1 := by
    split
    · norm_num
    · rename_i h
      have hpos : 0 < (fp1.classPatterns.toFinset ∪ fp2.classPatterns.toFinset).card := by
        omega
      have hle : (fp1.classPatterns.toFinset ∩ fp2.classPatterns.toFinset).card ≤
          (fp1.classPatterns.toFinset ∪ fp2.classPatterns.toFinset).card :=
        Finset.card_le_card Finset.inter_subset_union
      have hq : ((fp1.classPatterns.toFinset ∩ fp2.classPatterns.toFinset).card : ℚ) ≤
          ((fp1.classPatterns.toFinset ∪ fp2.classPatterns.toFinset).card : ℚ) := by
        exact_mod_cast hle
      have hqpos : (0 : ℚ) <
          ((fp1.classPatterns.toFinset ∪ fp2.classPatterns.toFinset).card : ℚ) := by
        exact_mod_cast hpos
      exact div_le_one_of_le₀ hq (le_of_lt hqpos)
  simp only
  nlinarith [closeness_nonneg fp1.depth fp2.depth,
    closeness_nonneg fp1.breadth fp2.breadth,
    closeness_nonneg fp1.nodeCount fp2.nodeCount, h1, h2, h3, h4]

theorem structuralSimilarity_comm (fp1 fp2 : DOMFingerprint) :
    structuralSimilarity fp1 fp2 = structuralSimilarity fp2 fp1 := by
  unfold structuralSimilarity
  simp only [closeness_comm fp1.depth, closeness_comm fp1.breadth, closeness_comm fp1.nodeCount,
    Finset.inter_comm fp1.classPatterns.toFinset, Finset.union_comm fp1.classPatterns.toFinset]

theorem structuralSimilarity_self (fp : DOMFingerprint) :
    structuralSimilarity fp fp = 1 := by
  unfold structuralSimilarity
  rw [closeness_self, closeness_self, closeness_self]
  simp only [Finset.inter_self, Finset.union_self]
  split
  · norm_num
  · rename_i h
    have hpos : 0 < fp.classPatterns.toFinset.card := by omega
    have hqpos : (0 : ℚ) < (fp.classPatterns.toFinset.card : ℚ) := by exact_mod_cast hpos
    rw [div_self (ne_of_gt hqpos)]
    norm_num

/-- **C1.** `SimilarityCalculator.calculate` returns a value in `[0, 1]`, is
symmetric, and gives similarity `1` on identical fingerprints. -/
theorem calculate_range_symm_refl (a b : DOMFingerprint) :
    0 ≤ calculate a b ∧ calculate a b ≤ 1 ∧
      calculate a b = calculate b a ∧ calculate a a = 1 := by
  refine ⟨?_, ?_, ?_, ?_⟩
  · unfold calculate
    nlinarith [tagSequenceSimilarity_nonneg a b, structuralSimilarity_nonneg a b]
  · unfold calculate
    nlinarith [tagSequenceSimilarity_le_one a b, structuralSimilarity_le_one a b,
      tagSequenceSimilarity_nonneg a b, structuralSimilarity_nonneg a b]
  · unfold calculate
    rw [tagSequenceSimilarity_comm, structuralSimilarity_comm]
  · unfold calculate
    rw [tagSequenceSimilarity_self, structuralSimilarity_self]
    norm_num

theorem calculate_nonneg (a b : DOMFingerprint) : 0 ≤ calculate a b :=
  (calculate_range_symm_refl a b).1

theorem calculate_le_one (a b : DOMFingerprint) : calculate a b ≤ 1 :=
  (calculate_range_symm_refl a b).2.1

theorem calculateAverageSimilarity_nonneg (fp : DOMFingerprint)
    (members : List DOMFingerprint) : 0 ≤ calculateAverageSimilarity fp members := by
  unfold calculateAverageSimilarity
  split
  · norm_num
  · apply div_nonneg
    · apply List.sum_nonneg
      intro x hx
      obtain ⟨m, _, rfl⟩ := List.mem_map.mp hx
      exact calculate_nonneg fp m
    · positivity

/-! ### Page cluster engine (`src/classifier/page-cluster.ts`) -/

/-- JavaScript's `String.prototype.includes` (substring containment),
modelled on the character lists underlying the strings. -/
def strIncludes (s sub : String) : Bool :=
  decide (sub.data <:+: s.data)

/-- JavaScript's `String.prototype.toLowerCase`, modelled characterwise. -/
def strToLower (s : String) : String :=
  String.mk (s.data.map Char.toLower)

/-- JavaScript's `String.prototype.endsWith`, modelled on character lists. -/
def strEndsWith (s sub : String) : Bool :=
  decide (sub.data <:+ s.data)

/-- `PageCluster` from `src/types.ts`. -/
structure PageCluster where
  id : String
  category : String
  members : List DOMFingerprint
  representative : DOMFingerprint
deriving DecidableEq, Repr, Inhabited

/-- `PageClusterEngine.inferCategory`: URL-pattern based category, falling
back to structural heuristics, else `"other"`. -/
def inferCategory (fp : DOMFingerprint) : String :=
  let url := strToLower fp.url
  if url = "/" || strEndsWith url "/" then "homepage"
  else if strIncludes url "/detail/" || strIncludes url "/item/" then "detail_page"
  else if strIncludes url "/list" || strIncludes url "/search" then "list_page"
  else if strIncludes url "/about" || strIncludes url "/company" then "about_page"
  else if strIncludes url "/contact" then "contact_page"
  else if strIncludes url "/help" || strIncludes url "/faq" then "help_page"
  else if strIncludes url "/news" || strIncludes url "/blog" then "news_page"
  else if fp.nodeCount > 1000 && fp.depth > 10 then "complex_page"
  else if fp.breadth > 20 then "content_heavy"
  else "other"

/-- The loop body of `PageClusterEngine.findRepresentative`: scan `toScan`,
keeping the current best member and best score, updating on a strictly
higher average similarity to the members with a *different URL*
(`members.filter(m => m.url !== member.url)` in the source). -/
def repLoop (ms : List DOMFingerprint) :
    List DOMFingerprint → DOMFingerprint → ℚ → DOMFingerprint
  | [], best, _ => best
  | m :: rest, best, bestScore =>
    let avgSim := calculateAverageSimilarity m (ms.filter (fun x => x.url ≠ m.url))
    if avgSim > bestScore then repLoop ms rest m avgSim
    else repLoop ms rest best bestScore

/-- `PageClusterEngine.findRepresentative`.  The source indexes `members[0]`
and is only ever called on non-empty member lists; the empty case returns
the default fingerprint. -/
def findRepresentative (members : List DOMFingerprint) : DOMFingerprint :=
  match members with
  | [] => default
  | m :: rest =>
    if rest = [] then m
    else repLoop (m :: rest) (m :: rest) m (-1)

/-- The inner `for (const cluster of clusters)` scan of
`PageClusterEngine.cluster`: append `fp` to the first cluster whose current
average similarity is at least the threshold, recomputing that cluster's
representative; `none` if no cluster qualifies. -/
def joinFirstMatch (threshold : ℚ) (fp : DOMFingerprint) :
    List PageCluster → Option (List PageCluster)
  | [] => none
  | c :: cs =>
    if calculateAverageSimilarity fp c.members ≥ threshold then
      some ({ c with
              members := c.members ++ [fp],
              representative := findRepresentative (c.members ++ [fp]) } :: cs)
    else
      match joinFirstMatch threshold fp cs with
      | some cs' => some (c :: cs')
      | none => none

/-- One iteration of the outer loop of `PageClusterEngine.cluster`.  The
`Nat` component counts the clusters created so far; `idGen n` stands for the
string produced by the (nondeterministic) `generateId` on the `n`-th cluster
creation. -/
def clusterStep (threshold : ℚ) (idGen : Nat → String)
    (acc : List PageCluster × Nat) (fp : DOMFingerprint) : List PageCluster × Nat :=
  match joinFirstMatch threshold fp acc.1 with
  | some cs' => (cs', acc.2)
  | none =>
    (acc.1 ++ [{ id := idGen acc.2, category := inferCategory fp,
                 members := [fp], representative := fp }], acc.2 + 1)

/-- `PageClusterEngine.cluster`: single-pass greedy clustering of the
fingerprints in input order. -/
def cluster (threshold : ℚ) (idGen : Nat → String)
    (fingerprints : List DOMFingerprint) : List PageCluster :=
  (fingerprints.foldl (clusterStep threshold idGen) ([], 0)).1

/-! ### C2: the clustering rule, stated from the spec's words -/

/-- Modelled from the spec's words for C2: "process fingerprints in input
order. For each fingerprint, scan existing clusters in creation order; join
the **first** cluster whose current average similarity to the fingerprint is
≥ the threshold. If no cluster qualifies, create a new singleton cluster."
Tracks only the member lists of the clusters, in creation order. -/
def specAssignStep (threshold : ℚ) (groups : List (List DOMFingerprint))
    (fp : DOMFingerprint) : List (List DOMFingerprint) :=
  match groups.findIdx? (fun g => calculateAverageSimilarity fp g ≥ threshold) with
  | some i => groups.set i (groups.getD i [] ++ [fp])
  | none => groups ++ [[fp]]

/-- Modelled from the spec's words for C2 (see `specAssignStep`). -/
def specAssign (threshold : ℚ) (fingerprints : List DOMFingerprint) :
    List (List DOMFingerprint) :=
  fingerprints.foldl (specAssignStep threshold) []

theorem joinFirstMatch_members (threshold : ℚ) (fp : DOMFingerprint) :
    ∀ cs : List PageCluster,
      (match joinFirstMatch threshold fp cs with
        | some cs' => some (cs'.map PageCluster.members)
        | none => none) =
      (match (cs.map PageCluster.members).findIdx?
          (fun g => calculateAverageSimilarity fp g ≥ threshold) with
        | some i => some ((cs.map PageCluster.members).set i
            ((cs.map PageCluster.members).getD i [] ++ [fp]))
        | none => none) := by
  intro cs
  induction cs with
  | nil => simp [joinFirstMatch]
  | cons c cs ih =>
    by_cases h : calculateAverageSimilarity fp c.members ≥ threshold
    · simp [joinFirstMatch, h, List.findIdx?_cons]
    · simp only [joinFirstMatch, if_neg h, List.map_cons, List.findIdx?_cons,
        decide_eq_true_eq, h, if_false]
      cases hj : joinFirstMatch threshold fp cs with
      | none =>
        rw [hj] at ih
        simp only [hj] at ih ⊢
        cases hf : (cs.map PageCluster.members).findIdx?
            (fun g => calculateAverageSimilarity fp g ≥ threshold) with
        | none => simp [List.findIdx?_succ, hf]
        | some i => simp [hf] at ih
      | some cs' =>
        rw [hj] at ih
        simp only [hj] at ih ⊢
        cases hf : (cs.map PageCluster.members).findIdx?
            (fun g => calculateAverageSimilarity fp g ≥ threshold) with
        | none => simp [hf] at ih
        | some i =>
          simp only [hf, Option.some.injEq] at ih
          simp [List.findIdx?_succ, hf, ih]

/-- **C2.** `PageClusterEngine.cluster` realises the spec's rule: each
fingerprint, in input order, joins the first existing cluster (in creation
order) whose current average similarity is at least the threshold, and
otherwise founds a new singleton cluster.  Stated as: the member lists of
the produced clusters coincide with the spec-worded assignment. -/
theorem cluster_eq_specAssign (threshold : ℚ) (idGen : Nat → String)
    (fingerprints : List DOMFingerprint) :
    (cluster threshold idGen fingerprints).map PageCluster.members =
      specAssign threshold fingerprints := by
  unfold cluster specAssign
  suffices h : ∀ (acc : List PageCluster × Nat),
      (fingerprints.foldl (clusterStep threshold idGen) acc).1.map PageCluster.members =
        fingerprints.foldl (specAssignStep threshold) (acc.1.map PageCluster.members) by
    simpa using h ([], 0)
  induction fingerprints with
  | nil => intro acc; simp
  | cons fp fps ih =>
    intro acc
    rw [List.foldl_cons, List.foldl_cons, ih]
    congr 1
    unfold clusterStep specAssignStep
    have := joinFirstMatch_members threshold fp acc.1
    cases hj : joinFirstMatch threshold fp acc.1 with
    | some cs' =>
      rw [hj] at this
      cases hf : (acc.1.map PageCluster.members).findIdx?
          (fun g => calculateAverageSimilarity fp g ≥ threshold) with
      | none => simp [hf] at this
      | some i =>
        simp only [hf, Option.some.injEq] at this
        simpa [hf] using this
    | none =>
      rw [hj] at this
      cases hf : (acc.1.map PageCluster.members).findIdx?
          (fun g => calculateAverageSimilarity fp g ≥ threshold) with
      | some i => simp [hf] at this
      | none => simp [hf]

/-! ### C3: clustering is deterministic up to the generated ids -/

/-- A cluster with its nondeterministically generated id erased: category,
members (in insertion order) and representative. -/
def stripId (c : PageCluster) : String × List DOMFingerprint × DOMFingerprint :=
  (c.category, c.members, c.representative)

theorem joinFirstMatch_stripId (threshold : ℚ) (fp : DOMFingerprint) :
    ∀ cs₁ cs₂ : List PageCluster, cs₁.map stripId = cs₂.map stripId →
      (joinFirstMatch threshold fp cs₁).map (List.map stripId) =
        (joinFirstMatch threshold fp cs₂).map (List.map stripId) := by
  intro cs₁
  induction cs₁ with
  | nil =>
    intro cs₂ h
    have : cs₂ = [] := by
      cases cs₂ with
      | nil => rfl
      | cons c cs => simp at h
    subst this
    rfl
  | cons c₁ cs₁ ih =>
    intro cs₂ h
    cases cs₂ with
    | nil => simp at h
    | cons c₂ cs₂ =>
      simp only [List.map_cons, List.cons.injEq] at h
      obtain ⟨hhead, htail⟩ := h
      have hcat : c₁.category = c₂.category := congrArg Prod.fst hhead
      have hmem : c₁.members = c₂.members := congrArg (Prod.fst ∘ Prod.snd) hhead
      have hrep : c₁.representative = c₂.representative := congrArg (Prod.snd ∘ Prod.snd) hhead
      unfold joinFirstMatch
      rw [hmem]
      by_cases hq : calculateAverageSimilarity fp c₂.members ≥ threshold
      · simp only [if_pos hq, Option.map_some', List.map_cons]
        simp [stripId, hcat, htail]
      · simp only [if_neg hq]
        have := ih cs₂ htail
        cases h₁ : joinFirstMatch threshold fp cs₁ with
        | none =>
          cases h₂ : joinFirstMatch threshold fp cs₂ with
          | none => rfl
          | some l₂ => rw [h₁, h₂] at this; simp at this
        | some l₁ =>
          cases h₂ : joinFirstMatch threshold fp cs₂ with
          | none => rw [h₁, h₂] at this; simp at this
          | some l₂ =>
            rw [h₁, h₂] at this
            simp only [Option.map_some', Option.some.injEq] at this
            simp [this, hhead]

/-- **C3.** For a fixed input sequence and threshold, two runs of
`PageClusterEngine.cluster` — differing only in the nondeterministic
`generateId` outputs (`Date.now()` and `Math.random()`) — produce the same
clusters: same categories, same members in the same order, and the same
representatives. -/
theorem cluster_deterministic (threshold : ℚ) (idGen₁ idGen₂ : Nat → String)
    (fingerprints : List DOMFingerprint) :
    (cluster threshold idGen₁ fingerprints).map stripId =
      (cluster threshold idGen₂ fingerprints).map stripId := by
  unfold cluster
  suffices h : ∀ (acc₁ acc₂ : List PageCluster × Nat),
      acc₁.1.map stripId = acc₂.1.map stripId →
      (fingerprints.foldl (clusterStep threshold idGen₁) acc₁).1.map stripId =
        (fingerprints.foldl (clusterStep threshold idGen₂) acc₂).1.map stripId by
    exact h ([], 0) ([], 0) rfl
  induction fingerprints with
  | nil => intro acc₁ acc₂ h; simpa using h
  | cons fp fps ih =>
    intro acc₁ acc₂ h
    rw [List.foldl_cons, List.foldl_cons]
    apply ih
    unfold clusterStep
    have := joinFirstMatch_stripId threshold fp acc₁.1 acc₂.1 h
    cases h₁ : joinFirstMatch threshold fp acc₁.1 with
    | none =>
      cases h₂ : joinFirstMatch threshold fp acc₂.1 with
      | none => simp [h, stripId]
      | some l₂ => rw [h₁, h₂] at this; simp at this
    | some l₁ =>
      cases h₂ : joinFirstMatch threshold fp acc₂.1 with
      | none => rw [h₁, h₂] at this; simp at this
      | some l₂ =>
        rw [h₁, h₂] at this
        simp only [Option.map_some', Option.some.injEq] at this
        simpa using this

/-! ### C8: representative selection -/

/-- The first element of a list attaining the maximal value of `f`
(a later element replaces an earlier one only on a strictly greater value) —
the spec's "highest, ties broken by first-encountered". -/
def argmaxFirst (f : α → ℚ) : List α → Option α
  | [] => none
  | a :: as =>
    match argmaxFirst f as with
    | none => some a
    | some b => if f b > f a then some b else some a

/-- The score `PageClusterEngine.findRepresentative` actually uses: average
similarity to the members whose *URL* differs
(`members.filter(m => m.url !== member.url)`). -/
def codeRepScore (ms : List DOMFingerprint) (m : DOMFingerprint) : ℚ :=
  calculateAverageSimilarity m (ms.filter (fun x => x.url ≠ m.url))

/-- Modelled from the spec's words for C8: the score is the average
similarity to all *other* members of the cluster. -/
def specRepScore (ms : List DOMFingerprint) (m : DOMFingerprint) : ℚ :=
  calculateAverageSimilarity m (ms.filter (fun x => x ≠ m))

/-- Modelled from the spec's words for C8: "the member whose average
similarity to all other members in the cluster is highest (ties broken by
first-encountered)". -/
def specFindRepresentative (ms : List DOMFingerprint) : Option DOMFingerprint :=
  argmaxFirst (specRepScore ms) ms

theorem argmaxFirst_cons (f : α → ℚ) (a : α) (as : List α) :
    argmaxFirst f (a :: as) =
      match argmaxFirst f as with
      | none => some a
      | some b => if f b > f a then some b else some a := rfl

theorem argmaxFirst_cons_none {f : α → ℚ} {a : α} {as : List α}
    (h : argmaxFirst f as = none) : argmaxFirst f (a :: as) = some a := by
  rw [argmaxFirst_cons, h]

theorem argmaxFirst_cons_some {f : α → ℚ} {a b : α} {as : List α}
    (h : argmaxFirst f as = some b) :
    argmaxFirst f (a :: as) = if f b > f a then some b else some a := by
  rw [argmaxFirst_cons, h]

theorem repLoop_char (ms : List DOMFingerprint) :
    ∀ (l : List DOMFingerprint) (best : DOMFingerprint) (score : ℚ),
      repLoop ms l best score =
        (match argmaxFirst (codeRepScore ms) l with
          | none => best
          | some a => if codeRepScore ms a > score then a else best) := by
  intro l
  induction l with
  | nil => intro best score; rfl
  | cons a l ih =>
    intro best score
    show (if codeRepScore ms a > score then repLoop ms l a (codeRepScore ms a)
        else repLoop ms l best score) = _
    rw [ih a (codeRepScore ms a), ih best score]
    cases h : argmaxFirst (codeRepScore ms) l with
    | none =>
      rw [argmaxFirst_cons_none h]
    | some b =>
      rw [argmaxFirst_cons_some h]
      by_cases hba : codeRepScore ms b > codeRepScore ms a
      · rw [if_pos hba]
        by_cases hc : codeRepScore ms a > score
        · have hbs : codeRepScore ms b > score := lt_trans hc hba
          simp [hc, hbs, hba]
        · simp [hc, hba]
      · rw [if_neg hba]
        by_cases hc : codeRepScore ms a > score
        · simp [hc, hba]
        · have hbs : ¬ codeRepScore ms b > score := by
            push_neg at hba hc ⊢
            exact le_trans hba hc
          simp [hc, hbs, hba]

theorem argmaxFirst_isSome {f : α → ℚ} {l : List α} (h : l ≠ []) :
    ∃ a, argmaxFirst f l = some a := by
  cases l with
  | nil => exact absurd rfl h
  | cons a as =>
    unfold argmaxFirst
    cases argmaxFirst f as with
    | none => exact ⟨a, rfl⟩
    | some b =>
      by_cases hc : f b > f a
      · exact ⟨b, by simp [hc]⟩
      · exact ⟨a, by simp [hc]⟩

/-- `findRepresentative` computes the first member maximising the
URL-filtered average-similarity score. -/
theorem findRepresentative_eq_argmaxFirst (ms : List DOMFingerprint) (h : ms ≠ []) :
    argmaxFirst (codeRepScore ms) ms = some (findRepresentative ms) := by
  cases ms with
  | nil => exact absurd rfl h
  | cons m rest =>
    by_cases hr : rest = []
    · subst hr
      simp [findRepresentative, argmaxFirst]
    · have hfr : findRepresentative (m :: rest) = repLoop (m :: rest) (m :: rest) m (-1) := by
        show (if rest = [] then m else repLoop (m :: rest) (m :: rest) m (-1)) = _
        rw [if_neg hr]
      rw [hfr, repLoop_char]
      obtain ⟨a, ha⟩ := argmaxFirst_isSome (f := codeRepScore (m :: rest))
        (l := m :: rest) (by simp)
      rw [ha]
      have hpos : codeRepScore (m :: rest) a > -1 := by
        unfold codeRepScore
        exact lt_of_lt_of_le (by norm_num) (calculateAverageSimilarity_nonneg _ _)
      simp [hpos]

theorem argmaxFirst_mem {f : α → ℚ} :
    ∀ {l : List α} {b : α}, argmaxFirst f l = some b → b ∈ l := by
  intro l
  induction l with
  | nil => intro b h; simp [argmaxFirst] at h
  | cons a as ih =>
    intro b h
    cases ha : argmaxFirst f as with
    | none =>
      rw [argmaxFirst_cons_none ha] at h
      cases h
      exact List.mem_cons_self a as
    | some c =>
      rw [argmaxFirst_cons_some ha] at h
      by_cases hc : f c > f a
      · rw [if_pos hc] at h
        cases h
        exact List.mem_cons_of_mem a (ih ha)
      · rw [if_neg hc] at h
        cases h
        exact List.mem_cons_self a as

theorem argmaxFirst_congr {f g : α → ℚ} :
    ∀ l : List α, (∀ x ∈ l, f x = g x) → argmaxFirst f l = argmaxFirst g l := by
  intro l
  induction l with
  | nil => intro _; rfl
  | cons a as ih =>
    intro h
    have ht : argmaxFirst f as = argmaxFirst g as :=
      ih (fun x hx => h x (List.mem_cons_of_mem a hx))
    cases hb : argmaxFirst g as with
    | none => rw [argmaxFirst_cons_none (ht.trans hb), argmaxFirst_cons_none hb]
    | some b =>
      have hbmem : b ∈ as := argmaxFirst_mem (f := g) hb
      rw [argmaxFirst_cons_some (ht.trans hb), argmaxFirst_cons_some hb,
        h a (List.mem_cons_self a as), h b (List.mem_cons_of_mem a hbmem)]



/-- On a member list whose URLs are pairwise distinct, filtering out the
members with the same URL (what the source does) agrees with filtering out
the member itself (what the spec says). -/
theorem codeRepScore_eq_specRepScore (ms : List DOMFingerprint)
    (hnd : (ms.map DOMFingerprint.url).Nodup) (m : DOMFingerprint) (hm : m ∈ ms) :
    codeRepScore ms m = specRepScore ms m := by
  unfold codeRepScore specRepScore
  congr 1
  apply List.filter_congr
  intro x hx
  have hinj := List.inj_on_of_nodup_map hnd
  simp only [decide_eq_decide]
  constructor
  · intro hne heq
    exact hne (by rw [heq])
  · intro hne hurl
    exact hne (hinj hx hm hurl)

/-- Every cluster the engine ever produces has non-empty members and a
representative equal to `findRepresentative` of its members. -/
theorem cluster_rep_invariant (threshold : ℚ) (idGen : Nat → String)
    (fingerprints : List DOMFingerprint) :
    ∀ c ∈ cluster threshold idGen fingerprints,
      c.members ≠ [] ∧ c.representative = findRepresentative c.members := by
  have hjoin : ∀ (fp : DOMFingerprint) (cs cs' : List PageCluster),
      (∀ c ∈ cs, c.members ≠ [] ∧ c.representative = findRepresentative c.members) →
      joinFirstMatch threshold fp cs = some cs' →
      ∀ c ∈ cs', c.members ≠ [] ∧ c.representative = findRepresentative c.members := by
    intro fp cs
    induction cs with
    | nil => intro cs' _ h; simp [joinFirstMatch] at h
    | cons c₀ cs ih =>
      intro cs' hinv h
      unfold joinFirstMatch at h
      by_cases hq : calculateAverageSimilarity fp c₀.members ≥ threshold
      · rw [if_pos hq] at h
        cases h
        intro c hc
        rcases List.mem_cons.mp hc with hc | hc
        · subst hc
          refine ⟨by simp, rfl⟩
        · exact hinv c (List.mem_cons_of_mem c₀ hc)
      · rw [if_neg hq] at h
        cases hj : joinFirstMatch threshold fp cs with
        | none => rw [hj] at h; simp at h
        | some l =>
          rw [hj] at h
          simp only [Option.some.injEq] at h
          subst h
          intro c hc
          rcases List.mem_cons.mp hc with hc | hc
          · subst hc
            exact hinv c (List.mem_cons_self c cs)
          · exact ih l (fun c hm => hinv c (List.mem_cons_of_mem c₀ hm)) hj c hc
  unfold cluster
  suffices h : ∀ (acc : List PageCluster × Nat),
      (∀ c ∈ acc.1, c.members ≠ [] ∧ c.representative = findRepresentative c.members) →
      ∀ c ∈ (fingerprints.foldl (clusterStep threshold idGen) acc).1,
        c.members ≠ [] ∧ c.representative = findRepresentative c.members by
    exact h ([], 0) (by simp)
  induction fingerprints with
  | nil => intro acc h; simpa using h
  | cons fp fps ih =>
    intro acc hacc
    rw [List.foldl_cons]
    apply ih
    unfold clusterStep
    cases hj : joinFirstMatch threshold fp acc.1 with
    | some cs' =>
      exact hjoin fp acc.1 cs' hacc hj
    | none =>
      intro c hc
      rcases List.mem_append.mp hc with hc | hc
      · exact hacc c hc
      · simp only [List.mem_singleton] at hc
        subst hc
        exact ⟨by simp, by simp [findRepresentative]⟩

/-- **C8 (amended).** After every insertion the representative equals the
first member maximising the average similarity to the members *with a
different URL*; when the cluster's member URLs are pairwise distinct — the
situation the spec describes — this is exactly the first member maximising
the average similarity to all other members. -/
theorem cluster_representative_spec (threshold : ℚ) (idGen : Nat → String)
    (fingerprints : List DOMFingerprint) (c : PageCluster)
    (hc : c ∈ cluster threshold idGen fingerprints)
    (hnd : (c.members.map DOMFingerprint.url).Nodup) :
    specFindRepresentative c.members = some c.representative := by
  obtain ⟨hne, hrep⟩ := cluster_rep_invariant threshold idGen fingerprints c hc
  rw [hrep, ← findRepresentative_eq_argmaxFirst c.members hne]
  unfold specFindRepresentative
  exact argmaxFirst_congr c.members
    (fun m hm => (codeRepScore_eq_specRepScore c.members hnd m hm).symm)

/-- Concrete fingerprint used in the C8 witness. -/
def fpW : DOMFingerprint :=
  { url := "/a", tagSequence := ["html", "body"], classPatterns := ["nav"],
    depth := 2, breadth := 1, nodeCount := 10 }

/-- The singleton cluster produced from `fpW` alone. -/
def clW : PageCluster :=
  { id := "cid0", category := "other", members := [fpW], representative := fpW }

theorem cluster_representative_spec_witness :
    clW ∈ cluster (3 / 4) (fun _ => "cid0") [fpW] ∧
      ((clW.members.map DOMFingerprint.url).Nodup ∧
        specFindRepresentative clW.members = some clW.representative) := by
  have h1 : clW ∈ cluster (3 / 4) (fun _ => "cid0") [fpW] := by decide
  have h2 : ((clW.members.map DOMFingerprint.url).Nodup) := by decide
  exact ⟨h1, h2, cluster_representative_spec (3 / 4) (fun _ => "cid0") [fpW] clW h1 h2⟩

end Enspider

namespace Enspider

/-! ### C8: counterexample data

Three fingerprints, two of which share a URL.  All tag sequences, depths,
breadths and node counts agree, so similarity is driven by the class-pattern
Jaccard overlap alone. -/

/-- C8 counterexample fingerprint (URL `"u"`). -/
def repCexA : DOMFingerprint := ⟨"u", ["html"], ["x", "y"], 1, 1, 1⟩

/-- C8 counterexample fingerprint (same URL `"u"` as `repCexA`). -/
def repCexB : DOMFingerprint := ⟨"u", ["html"], ["z"], 1, 1, 1⟩

/-- C8 counterexample fingerprint (URL `"v"`). -/
def repCexC : DOMFingerprint := ⟨"v", ["html"], ["x", "y", "z"], 1, 1, 1⟩

/-- `structuralSimilarity` with its `let`s expanded. -/
theorem structuralSimilarity_def (fp1 fp2 : DOMFingerprint) :
    structuralSimilarity fp1 fp2 =
      closeness fp1.depth fp2.depth * 0.3 + closeness fp1.breadth fp2.breadth * 0.2 +
      closeness fp1.nodeCount fp2.nodeCount * 0.2 +
      (if (fp1.classPatterns.toFinset ∪ fp2.classPatterns.toFinset).card = 0 then (1 : ℚ)
       else ((fp1.classPatterns.toFinset ∩ fp2.classPatterns.toFinset).card : ℚ) /
            ((fp1.classPatterns.toFinset ∪ fp2.classPatterns.toFinset).card : ℚ)) * 0.3 := rfl

theorem repCex_calcAB : calculate repCexA repCexB = 22 / 25 := by
  have h1 : (repCexA.classPatterns.toFinset ∩ repCexB.classPatterns.toFinset).card = 0 := by
    decide
  have h2 : (repCexA.classPatterns.toFinset ∪ repCexB.classPatterns.toFinset).card = 3 := by
    decide
  unfold calculate
  rw [structuralSimilarity_def, h1, h2]
  norm_num [tagSequenceSimilarity, repCexA, repCexB, levenshteinDistance, closeness]

theorem repCex_calcAC : calculate repCexA repCexC = 24 / 25 := by
  have h1 : (repCexA.classPatterns.toFinset ∩ repCexC.classPatterns.toFinset).card = 2 := by
    decide
  have h2 : (repCexA.classPatterns.toFinset ∪ repCexC.classPatterns.toFinset).card = 3 := by
    decide
  unfold calculate
  rw [structuralSimilarity_def, h1, h2]
  norm_num [tagSequenceSimilarity, repCexA, repCexC, levenshteinDistance, closeness]

theorem repCex_calcBC : calculate repCexB repCexC = 23 / 25 := by
  have h1 : (repCexB.classPatterns.toFinset ∩ repCexC.classPatterns.toFinset).card = 1 := by
    decide
  have h2 : (repCexB.classPatterns.toFinset ∪ repCexC.classPatterns.toFinset).card = 3 := by
    decide
  unfold calculate
  rw [structuralSimilarity_def, h1, h2]
  norm_num [tagSequenceSimilarity, repCexB, repCexC, levenshteinDistance, closeness]

theorem repCex_calcBA : calculate repCexB repCexA = 22 / 25 := by
  rw [(calculate_range_symm_refl repCexB repCexA).2.2.1, repCex_calcAB]

theorem repCex_calcCA : calculate repCexC repCexA = 24 / 25 := by
  rw [(calculate_range_symm_refl repCexC repCexA).2.2.1, repCex_calcAC]

theorem repCex_calcCB : calculate repCexC repCexB = 23 / 25 := by
  rw [(calculate_range_symm_refl repCexC repCexB).2.2.1, repCex_calcBC]

theorem repCex_cat : inferCategory repCexA = "other" := by decide
theorem repCex_urlA : repCexA.url = "u" := rfl
theorem repCex_urlB : repCexB.url = "u" := rfl
theorem repCex_urlC : repCexC.url = "v" := rfl
theorem repCex_neAB : repCexA ≠ repCexB := by decide
theorem repCex_neBA : repCexB ≠ repCexA := by decide
theorem repCex_neAC : repCexA ≠ repCexC := by decide
theorem repCex_neCA : repCexC ≠ repCexA := by decide
theorem repCex_neBC : repCexB ≠ repCexC := by decide
theorem repCex_neCB : repCexC ≠ repCexB := by decide
theorem repCex_strNeUV : ¬("u" : String) = "v" := by decide
theorem repCex_strNeVU : ¬("v" : String) = "u" := by decide

theorem repCex_avgB : calculateAverageSimilarity repCexB [repCexA] = 22 / 25 := by
  unfold calculateAverageSimilarity
  rw [if_neg (by simp : ¬([repCexA] : List DOMFingerprint) = [])]
  norm_num [repCex_calcBA]

theorem repCex_avgC : calculateAverageSimilarity repCexC [repCexA, repCexB] = 47 / 50 := by
  unfold calculateAverageSimilarity
  rw [if_neg (by simp : ¬([repCexA, repCexB] : List DOMFingerprint) = [])]
  norm_num [repCex_calcCA, repCex_calcCB]

theorem repCex_rep2 : findRepresentative [repCexA, repCexB] = repCexA := by
  norm_num [findRepresentative, repLoop, calculateAverageSimilarity,
    repCex_urlA, repCex_urlB, List.cons_ne_nil]

theorem repCex_rep3 : findRepresentative [repCexA, repCexB, repCexC] = repCexA := by
  norm_num [findRepresentative, repLoop, calculateAverageSimilarity,
    repCex_urlA, repCex_urlB, repCex_urlC, repCex_strNeUV, repCex_strNeVU,
    List.cons_ne_nil, repCex_calcAC, repCex_calcBC, repCex_calcCA, repCex_calcCB]

theorem repCex_cluster :
    cluster 0 (fun _ => "cid") [repCexA, repCexB, repCexC] =
      [{ id := "cid", category := "other", members := [repCexA, repCexB, repCexC],
         representative := repCexA }] := by
  norm_num [cluster, clusterStep, joinFirstMatch, repCex_cat, repCex_avgB, repCex_avgC,
    repCex_rep2, repCex_rep3]

theorem repCex_specRep :
    specFindRepresentative [repCexA, repCexB, repCexC] = some repCexC := by
  norm_num [specFindRepresentative, specRepScore, argmaxFirst, calculateAverageSimilarity,
    repCex_neAB, repCex_neBA, repCex_neAC, repCex_neCA, repCex_neBC, repCex_neCB,
    List.cons_ne_nil, repCex_calcAB, repCex_calcAC, repCex_calcBA, repCex_calcBC,
    repCex_calcCA, repCex_calcCB]

/-- **C8 (counterexample).**  With threshold 0, the three fingerprints above
form a single cluster whose final representative, as computed by the code, is
`repCexA`; but the member whose average similarity to all *other* members is
highest — what the claim says the representative is recomputed to — is
`repCexC`.  The discrepancy arises because the code filters "other members"
by URL, and `repCexA`, `repCexB` share a URL. -/
theorem cluster_representative_counterexample :
    cluster 0 (fun _ => "cid") [repCexA, repCexB, repCexC] =
      [{ id := "cid", category := "other", members := [repCexA, repCexB, repCexC],
         representative := repCexA }] ∧
      specFindRepresentative [repCexA, repCexB, repCexC] = some repCexC ∧
      repCexA ≠ repCexC :=
  ⟨repCex_cluster, repCex_specRep, repCex_neAC⟩

end Enspider

namespace Enspider

/-! ### Smart sampler (`src/classifier/smart-sampler.ts`)

`identifyPageType(url, patterns)` (from `src/utils/page-utils.ts`) derives a
page type from a URL through the JavaScript `URL` parser and the configured
regular-expression pattern lists.  URL parsing and the regex engine are
external collaborators, so the sampler below takes the resulting
deterministic classification `pt : String → PageType` as a parameter; the
source guarantees (and the embedding preserves) that a fingerprint's
`pageType` is a function of its URL alone. -/

/-- The page types `identifyPageType` can produce. -/
inductive PageType where
  | homepage
  | detail
  | list
  | other
deriving DecidableEq, Repr, Inhabited

/-- `TypedFingerprint` from `smart-sampler.ts`: a `DOMFingerprint` plus the
URL-derived `pageType`. -/
structure TypedFingerprint extends DOMFingerprint where
  pageType : PageType
deriving DecidableEq, Repr, Inhabited

/-- `calculate` applied to the fingerprint parts of two typed fingerprints
(the source passes the typed objects straight to the calculator, which reads
only the fingerprint fields). -/
def calcT (a b : TypedFingerprint) : ℚ :=
  calculate a.toDOMFingerprint b.toDOMFingerprint

/-- The inner `maxSim` loop of `SmartSampler.selectDiversePages`: the
largest similarity between `m` and any already-selected page, starting
from 0. -/
def maxSimTo (selected : List TypedFingerprint) (m : TypedFingerprint) : ℚ :=
  selected.foldl (fun acc s => max acc (calcT m s)) 0

/-- The candidate-search loop of `SmartSampler.selectDiversePages`: scan the
members, skip the already-selected ones, and keep the member whose maximal
similarity to the selected set is *strictly* below the best seen so far,
starting from `minMaxSimilarity = 1`. -/
def pickLoop (selected : List TypedFingerprint) :
    List TypedFingerprint → Option TypedFingerprint → ℚ → Option TypedFingerprint
  | [], best, _ => best
  | m :: rest, best, minMax =>
    if selected.contains m then pickLoop selected rest best minMax
    else
      let s := maxSimTo selected m
      if s < minMax then pickLoop selected rest (some m) s
      else pickLoop selected rest best minMax

/-- One iteration of the `while` loop of `selectDiversePages`. -/
def pickCandidate (selected members : List TypedFingerprint) : Option TypedFingerprint :=
  pickLoop selected members none 1

/-- The `while (selected.length < maxSamples)` loop of
`selectDiversePages`; the fuel counts the remaining capacity. -/
def diverseLoop (members : List TypedFingerprint) :
    Nat → List TypedFingerprint → List TypedFingerprint
  | 0, selected => selected
  | n + 1, selected =>
    match pickCandidate selected members with
    | some c => diverseLoop members n (selected ++ [c])
    | none => selected

/-- `SmartSampler.selectDiversePages`. -/
def selectDiversePages (members : List TypedFingerprint) (maxSamples : Nat) :
    List TypedFingerprint :=
  if members.length ≤ maxSamples then members
  else
    match members with
    | [] => []
    | m :: _ => diverseLoop members (maxSamples - 1) [m]

/-- `TypedCluster`: the `{ id, category, members }` records
`sampleFromClusters` builds from the input clusters. -/
structure TypedCluster where
  id : String
  category : String
  members : List TypedFingerprint
deriving DecidableEq, Repr, Inhabited

/-- The JavaScript `Map<string, TypedFingerprint[]>` used by the sampler,
as an association list in insertion order. -/
abbrev Sampled := List (String × List TypedFingerprint)

/-- `Map.get`: the value stored at `k`, if any. -/
def mapGet (s : Sampled) (k : String) : Option (List TypedFingerprint) :=
  (s.find? (fun p => p.1 == k)).map Prod.snd

/-- `Map.set`: overwrite in place if the key exists, else append. -/
def mapSet (s : Sampled) (k : String) (v : List TypedFingerprint) : Sampled :=
  if s.any (fun p => p.1 == k) then s.map (fun p => if p.1 == k then (k, v) else p)
  else s ++ [(k, v)]

/-- `SmartSampler.findPageByType`: first member of the given type, in
cluster scan order, whose URL is not among the already-sampled URLs. -/
def findPageByType (clusters : List TypedCluster) (t : PageType)
    (exclude : List TypedFingerprint) : Option TypedFingerprint :=
  match clusters with
  | [] => none
  | c :: cs =>
    match c.members.find? (fun fp =>
        fp.pageType == t && !((exclude.map (fun e => e.url)).contains fp.url)) with
    | some page => some page
    | none => findPageByType cs t exclude

/-- `SmartSampler.addToSample`: append the page to the sample bucket of the
first cluster that contains a member with the page's URL. -/
def addToSample (sampled : Sampled) (clusters : List TypedCluster)
    (page : TypedFingerprint) : Sampled :=
  match clusters.find? (fun c => c.members.any (fun m => m.url == page.url)) with
  | some c => mapSet sampled c.id ((mapGet sampled c.id).getD [] ++ [page])
  | none => sampled

/-- The backfill loop of `SmartSampler.ensurePageTypes` for one page type:
up to `n` times, find an unsampled page of that type and add it to both the
sample map and the flat `allSampled` list, stopping early when none is
found. -/
def backfill (clusters : List TypedCluster) (t : PageType) :
    Nat → Sampled × List TypedFingerprint → Sampled × List TypedFingerprint
  | 0, st => st
  | n + 1, (sampled, all) =>
    match findPageByType clusters t all with
    | some p => backfill clusters t n (addToSample sampled clusters p, all ++ [p])
    | none => (sampled, all)

/-- Number of pages of the given type in a list. -/
def countType (t : PageType) (l : List TypedFingerprint) : Nat :=
  l.countP (fun fp => fp.pageType == t)

/-- `SmartSampler.ensurePageTypes`: backfill the sample to at least 3
`detail` pages, then at least 3 `list` pages. -/
def ensurePageTypes (sampled : Sampled) (clusters : List TypedCluster) : Sampled :=
  let all := (sampled.map Prod.snd).flatten
  let detailCount := countType PageType.detail all
  let st1 :=
    if detailCount < 3 then backfill clusters PageType.detail (3 - detailCount) (sampled, all)
    else (sampled, all)
  let listCount := countType PageType.list st1.2
  let st2 :=
    if listCount < 3 then backfill clusters PageType.list (3 - listCount) st1
    else st1
  st2.1

/-- `SmartSampler.sampleFromClusters`. -/
def sampleFromClusters (clusters : List PageCluster) (maxPagesPerCategory : Nat)
    (pt : String → PageType) : Sampled :=
  let typedClusters := clusters.map (fun c =>
    TypedCluster.mk c.id c.category
      (c.members.map (fun fp => { toDOMFingerprint := fp, pageType := pt fp.url })))
  let initial := typedClusters.foldl
    (fun s c => mapSet s c.id (selectDiversePages c.members maxPagesPerCategory)) []
  ensurePageTypes initial typedClusters

/-- `SmartSampler.getSampledPages`: flatten the sample map's values. -/
def getSampledPages (sampledClusters : Sampled) : List TypedFingerprint :=
  (sampledClusters.map Prod.snd).flatten

end Enspider

namespace Enspider

/-! ### C7: diversity selection, stated from the spec's words -/

/-- The first element (with its value) attaining the minimum of `f`, ties
resolved in favour of the earlier element. -/
def minOverQ (f : α → ℚ) : List α → Option (α × ℚ)
  | [] => none
  | a :: as =>
    match minOverQ f as with
    | none => some (a, f a)
    | some (b, v) => if f a ≤ v then some (a, f a) else some (b, v)

theorem minOverQ_cons (f : α → ℚ) (a : α) (as : List α) :
    minOverQ f (a :: as) =
      match minOverQ f as with
      | none => some (a, f a)
      | some (b, v) => if f a ≤ v then some (a, f a) else some (b, v) := rfl

theorem minOverQ_cons_none {f : α → ℚ} {a : α} {as : List α}
    (h : minOverQ f as = none) : minOverQ f (a :: as) = some (a, f a) := by
  rw [minOverQ_cons, h]

theorem minOverQ_cons_some {f : α → ℚ} {a b : α} {v : ℚ} {as : List α}
    (h : minOverQ f as = some (b, v)) :
    minOverQ f (a :: as) = if f a ≤ v then some (a, f a) else some (b, v) := by
  rw [minOverQ_cons, h]

theorem minOverQ_mem {f : α → ℚ} :
    ∀ {l : List α} {b : α} {v : ℚ}, minOverQ f l = some (b, v) → b ∈ l ∧ v = f b := by
  intro l
  induction l with
  | nil => intro b v h; simp [minOverQ] at h
  | cons a as ih =>
    intro b v h
    cases ha : minOverQ f as with
    | none =>
      rw [minOverQ_cons_none ha] at h
      cases h
      exact ⟨List.mem_cons_self a as, rfl⟩
    | some p =>
      obtain ⟨c, vc⟩ := p
      rw [minOverQ_cons_some ha] at h
      by_cases hc : f a ≤ vc
      · rw [if_pos hc] at h
        cases h
        exact ⟨List.mem_cons_self a as, rfl⟩
      · rw [if_neg hc] at h
        cases h
        obtain ⟨hm, hv⟩ := ih ha
        exact ⟨List.mem_cons_of_mem a hm, hv⟩

/-- Modelled from the amended C7 wording: among the not-yet-selected
members, the first one whose maximal similarity to the selected set is
smallest — provided that smallest value is strictly below 1; otherwise no
candidate. -/
def specPick (selected members : List TypedFingerprint) : Option TypedFingerprint :=
  match minOverQ (maxSimTo selected) (members.filter (fun m => !selected.contains m)) with
  | none => none
  | some (a, v) => if v < 1 then some a else none

/-- Modelled from C7's own words (the claim as stated, with no strictness
proviso): the first not-yet-selected member whose maximal similarity to the
selected set is smallest, whenever any unselected member remains. -/
def specClaimPick (selected members : List TypedFingerprint) : Option TypedFingerprint :=
  (minOverQ (maxSimTo selected) (members.filter (fun m => !selected.contains m))).map
    Prod.fst

/-- The amended-spec selection loop. -/
def specDiverseLoop (members : List TypedFingerprint) :
    Nat → List TypedFingerprint → List TypedFingerprint
  | 0, selected => selected
  | n + 1, selected =>
    match specPick selected members with
    | some c => specDiverseLoop members n (selected ++ [c])
    | none => selected

/-- The claim's selection loop (as stated). -/
def specClaimDiverseLoop (members : List TypedFingerprint) :
    Nat → List TypedFingerprint → List TypedFingerprint
  | 0, selected => selected
  | n + 1, selected =>
    match specClaimPick selected members with
    | some c => specClaimDiverseLoop members n (selected ++ [c])
    | none => selected

/-- The amended-spec diversity selection. -/
def specSelectDiversePages (members : List TypedFingerprint) (maxSamples : Nat) :
    List TypedFingerprint :=
  if members.length ≤ maxSamples then members
  else
    match members with
    | [] => []
    | m :: _ => specDiverseLoop members (maxSamples - 1) [m]

/-- The claim's diversity selection (as stated). -/
def specClaimSelectDiversePages (members : List TypedFingerprint) (maxSamples : Nat) :
    List TypedFingerprint :=
  if members.length ≤ maxSamples then members
  else
    match members with
    | [] => []
    | m :: _ => specClaimDiverseLoop members (maxSamples - 1) [m]

theorem pickLoop_char (selected : List TypedFingerprint) :
    ∀ (l : List TypedFingerprint) (best : Option TypedFingerprint) (v : ℚ),
      pickLoop selected l best v =
        (match minOverQ (maxSimTo selected) (l.filter (fun m => !selected.contains m)) with
          | none => best
          | some (a, va) => if va < v then some a else best) := by
  intro l
  induction l with
  | nil => intro best v; rfl
  | cons m rest ih =>
    intro best v
    by_cases hm : selected.contains m
    · show (if selected.contains m then pickLoop selected rest best v else _) = _
      rw [if_pos hm, ih best v]
      have hm' : m ∈ selected := by simpa using hm
      simp [List.filter_cons, hm']
    · show (if selected.contains m then _
          else
            if maxSimTo selected m < v then pickLoop selected rest (some m) (maxSimTo selected m)
            else pickLoop selected rest best v) = _
      rw [if_neg hm]
      have hm' : m ∉ selected := by simpa using hm
      have hfil : (m :: rest).filter (fun x => !selected.contains x) =
          m :: rest.filter (fun x => !selected.contains x) := by
        simp [List.filter_cons, hm']
      rw [hfil, minOverQ_cons]
      cases hrest : minOverQ (maxSimTo selected) (rest.filter (fun x => !selected.contains x)) with
      | none =>
        by_cases hv : maxSimTo selected m < v
        · rw [if_pos hv, ih (some m) (maxSimTo selected m), hrest]
          simp [hv]
        · rw [if_neg hv, ih best v, hrest]
          simp [hv]
      | some p =>
        obtain ⟨b, vb⟩ := p
        by_cases hv : maxSimTo selected m < v
        · rw [if_pos hv, ih (some m) (maxSimTo selected m), hrest]
          by_cases hb : maxSimTo selected m ≤ vb
          · have hnb : ¬ vb < maxSimTo selected m := not_lt.mpr hb
            simp [hb, hnb, hv]
          · have hb' : vb < maxSimTo selected m := lt_of_not_ge hb
            have hbv : vb < v := lt_trans hb' hv
            simp [hb, hb', hbv]
        · rw [if_neg hv, ih best v, hrest]
          by_cases hb : maxSimTo selected m ≤ vb
          · have hnb : ¬ vb < v := not_lt.mpr (le_trans (not_lt.mp hv) hb)
            simp [hb, hnb, hv]
          · simp [hb]

end Enspider

namespace Enspider

theorem pickCandidate_eq_specPick (selected members : List TypedFingerprint) :
    pickCandidate selected members = specPick selected members := by
  unfold pickCandidate specPick
  rw [pickLoop_char]

theorem diverseLoop_eq_spec (members : List TypedFingerprint) :
    ∀ (fuel : Nat) (selected : List TypedFingerprint),
      diverseLoop members fuel selected = specDiverseLoop members fuel selected := by
  intro fuel
  induction fuel with
  | zero => intro selected; rfl
  | succ n ih =>
    intro selected
    show (match pickCandidate selected members with
        | some c => diverseLoop members n (selected ++ [c])
        | none => selected) = _
    rw [pickCandidate_eq_specPick]
    show _ = (match specPick selected members with
        | some c => specDiverseLoop members n (selected ++ [c])
        | none => selected)
    cases specPick selected members with
    | none => rfl
    | some c => exact ih (selected ++ [c])

theorem diverseLoop_length (members : List TypedFingerprint) :
    ∀ (fuel : Nat) (selected : List TypedFingerprint),
      (diverseLoop members fuel selected).length ≤ selected.length + fuel := by
  intro fuel
  induction fuel with
  | zero => intro selected; simp [diverseLoop]
  | succ n ih =>
    intro selected
    show (match pickCandidate selected members with
        | some c => diverseLoop members n (selected ++ [c])
        | none => selected).length ≤ _
    cases pickCandidate selected members with
    | none => simp
    | some c =>
      show (diverseLoop members n (selected ++ [c])).length ≤ selected.length + (n + 1)
      have := ih (selected ++ [c])
      simp only [List.length_append, List.length_singleton] at this
      omega

/-- **C7 (amended).** For `maxPerCategory ≥ 1`, per-cluster diversity
selection equals the greedy farthest-point rule *restricted to candidates
whose maximal similarity to the selected set is strictly below 1* (the
source stops as soon as even the most diverse remaining candidate has
max-similarity 1), and the per-cluster sample never exceeds
`maxPerCategory` members. -/
theorem selectDiversePages_spec (members : List TypedFingerprint) (maxPerCategory : Nat)
    (hk : 1 ≤ maxPerCategory) :
    selectDiversePages members maxPerCategory =
        specSelectDiversePages members maxPerCategory ∧
      (selectDiversePages members maxPerCategory).length ≤ maxPerCategory := by
  constructor
  · unfold selectDiversePages specSelectDiversePages
    by_cases h : members.length ≤ maxPerCategory
    · simp [h]
    · simp only [if_neg h]
      cases members with
      | nil => rfl
      | cons m rest => exact diverseLoop_eq_spec _ _ _
  · unfold selectDiversePages
    by_cases h : members.length ≤ maxPerCategory
    · simp [h]
    · simp only [if_neg h]
      cases members with
      | nil => simp
      | cons m rest =>
        show (diverseLoop (m :: rest) (maxPerCategory - 1) [m]).length ≤ maxPerCategory
        have hlen := diverseLoop_length (m :: rest) (maxPerCategory - 1) [m]
        simp only [List.length_singleton] at hlen
        omega

theorem selectDiversePages_spec_witness :
    1 ≤ 1 ∧
      (selectDiversePages [] 1 = specSelectDiversePages [] 1 ∧
        (selectDiversePages [] 1).length ≤ 1) :=
  ⟨by decide, selectDiversePages_spec [] 1 (by decide)⟩

/-! ### C7: counterexample data

Three pairwise-distinct typed fingerprints with pairwise similarity exactly
1 (same tag sequence, same structure, equal class-pattern *sets* realised by
different lists). -/

/-- C7 counterexample fingerprint. -/
def divCexA : TypedFingerprint :=
  { url := "u1", tagSequence := ["t"], classPatterns := ["x", "y"],
    depth := 1, breadth := 1, nodeCount := 1, pageType := PageType.other }

/-- C7 counterexample fingerprint (same class set as `divCexA`, listed in
the other order). -/
def divCexB : TypedFingerprint :=
  { url := "u2", tagSequence := ["t"], classPatterns := ["y", "x"],
    depth := 1, breadth := 1, nodeCount := 1, pageType := PageType.other }

/-- C7 counterexample fingerprint (same class set again, with a repeat). -/
def divCexC : TypedFingerprint :=
  { url := "u3", tagSequence := ["t"], classPatterns := ["x", "y", "x"],
    depth := 1, breadth := 1, nodeCount := 1, pageType := PageType.other }

theorem divCex_calcBA : calcT divCexB divCexA = 1 := by
  have h1 : (divCexB.toDOMFingerprint.classPatterns.toFinset ∩
      divCexA.toDOMFingerprint.classPatterns.toFinset).card = 2 := by decide
  have h2 : (divCexB.toDOMFingerprint.classPatterns.toFinset ∪
      divCexA.toDOMFingerprint.classPatterns.toFinset).card = 2 := by decide
  unfold calcT calculate
  rw [structuralSimilarity_def, h1, h2]
  norm_num [tagSequenceSimilarity, divCexA, divCexB, levenshteinDistance, closeness]

theorem divCex_calcCA : calcT divCexC divCexA = 1 := by
  have h1 : (divCexC.toDOMFingerprint.classPatterns.toFinset ∩
      divCexA.toDOMFingerprint.classPatterns.toFinset).card = 2 := by decide
  have h2 : (divCexC.toDOMFingerprint.classPatterns.toFinset ∪
      divCexA.toDOMFingerprint.classPatterns.toFinset).card = 2 := by decide
  unfold calcT calculate
  rw [structuralSimilarity_def, h1, h2]
  norm_num [tagSequenceSimilarity, divCexA, divCexC, levenshteinDistance, closeness]

theorem divCex_neBA : divCexB ≠ divCexA := by decide
theorem divCex_neCA : divCexC ≠ divCexA := by decide

theorem divCex_maxSimB : maxSimTo [divCexA] divCexB = 1 := by
  norm_num [maxSimTo, divCex_calcBA]

theorem divCex_maxSimC : maxSimTo [divCexA] divCexC = 1 := by
  norm_num [maxSimTo, divCex_calcCA]

theorem divCex_code : selectDiversePages [divCexA, divCexB, divCexC] 2 = [divCexA] := by
  norm_num [selectDiversePages, diverseLoop, pickCandidate, pickLoop,
    divCex_maxSimB, divCex_maxSimC, divCex_neBA, divCex_neCA]

theorem divCex_claim :
    specClaimSelectDiversePages [divCexA, divCexB, divCexC] 2 = [divCexA, divCexB] := by
  norm_num [specClaimSelectDiversePages, specClaimDiverseLoop, specClaimPick, minOverQ,
    divCex_maxSimB, divCex_maxSimC, divCex_neBA, divCex_neCA]

/-- **C7 (counterexample).**  On three pairwise-distinct members with
pairwise similarity 1 and `maxPerCategory = 2`, the code stops after the
seed (every candidate has max-similarity 1, which the strict
`maxSim < minMaxSimilarity` comparison with initial value 1 never accepts),
while the claimed rule — add the unselected member with smallest
max-similarity until `maxPerCategory` members are selected or no candidates
remain — would select a second member. -/
theorem selectDiversePages_counterexample :
    selectDiversePages [divCexA, divCexB, divCexC] 2 = [divCexA] ∧
      specClaimSelectDiversePages [divCexA, divCexB, divCexC] 2 = [divCexA, divCexB] ∧
      selectDiversePages [divCexA, divCexB, divCexC] 2 ≠
        specClaimSelectDiversePages [divCexA, divCexB, divCexC] 2 := by
  refine ⟨divCex_code, divCex_claim, ?_⟩
  rw [divCex_code, divCex_claim]
  simp

end Enspider

namespace Enspider

/-! ### C6/C9: sampler invariants -/

/-- All members of a list of typed clusters, in cluster scan order. -/
def clusterMembersT (TC : List TypedCluster) : List TypedFingerprint :=
  (TC.map TypedCluster.members).flatten

theorem pickCandidate_mem {selected members : List TypedFingerprint}
    {c : TypedFingerprint} (h : pickCandidate selected members = some c) :
    c ∈ members ∧ c ∉ selected := by
  unfold pickCandidate at h
  rw [pickLoop_char] at h
  split at h
  · exact absurd h (by simp)
  · rename_i a va heq
    split at h
    · cases h
      obtain ⟨hmem, _⟩ := minOverQ_mem heq
      rw [List.mem_filter] at hmem
      exact ⟨hmem.1, by simpa using hmem.2⟩
    · exact absurd h (by simp)

theorem diverseLoop_subset (members : List TypedFingerprint) :
    ∀ (fuel : Nat) (selected : List TypedFingerprint),
      (∀ x ∈ selected, x ∈ members) →
      ∀ x ∈ diverseLoop members fuel selected, x ∈ members := by
  intro fuel
  induction fuel with
  | zero => intro selected h x hx; exact h x hx
  | succ n ih =>
    intro selected h x hx
    revert hx
    show x ∈ (match pickCandidate selected members with
        | some c => diverseLoop members n (selected ++ [c])
        | none => selected) → x ∈ members
    cases hp : pickCandidate selected members with
    | none => intro hx; exact h x hx
    | some c =>
      intro hx
      refine ih (selected ++ [c]) ?_ x hx
      intro y hy
      rcases List.mem_append.mp hy with hy | hy
      · exact h y hy
      · rw [List.mem_singleton] at hy
        subst hy
        exact (pickCandidate_mem hp).1

theorem diverseLoop_nodup (members : List TypedFingerprint) :
    ∀ (fuel : Nat) (selected : List TypedFingerprint),
      selected.Nodup → (diverseLoop members fuel selected).Nodup := by
  intro fuel
  induction fuel with
  | zero => intro selected h; exact h
  | succ n ih =>
    intro selected h
    show (match pickCandidate selected members with
        | some c => diverseLoop members n (selected ++ [c])
        | none => selected).Nodup
    cases hp : pickCandidate selected members with
    | none => exact h
    | some c =>
      refine ih (selected ++ [c]) ?_
      simp [List.nodup_append, h, (pickCandidate_mem hp).2]

theorem selectDiversePages_subset (members : List TypedFingerprint) (k : Nat) :
    ∀ x ∈ selectDiversePages members k, x ∈ members := by
  unfold selectDiversePages
  split
  · intro x hx; exact hx
  · cases members with
    | nil => intro x hx; simp at hx
    | cons m rest =>
      exact diverseLoop_subset (m :: rest) (k - 1) [m]
        (by intro y hy; rw [List.mem_singleton] at hy; subst hy; exact List.mem_cons_self _ _)

theorem selectDiversePages_nodup (members : List TypedFingerprint) (k : Nat)
    (h : members.Nodup) : (selectDiversePages members k).Nodup := by
  unfold selectDiversePages
  split
  · exact h
  · cases members with
    | nil => simp
    | cons m rest => exact diverseLoop_nodup (m :: rest) (k - 1) [m] (by simp)

/-- Mapping a URL-injective list through `url` preserves `Nodup` on subsets. -/
theorem nodup_map_url_of_subset {l₂ l₁ : List TypedFingerprint}
    (hsub : ∀ x ∈ l₂, x ∈ l₁) (hnd : l₂.Nodup)
    (hinj : ((l₁.map (fun fp => fp.url)).Nodup)) :
    ((l₂.map (fun fp => fp.url)).Nodup) := by
  refine List.Nodup.map_on ?_ hnd
  intro x hx y hy hxy
  exact List.inj_on_of_nodup_map hinj (hsub x hx) (hsub y hy) hxy

end Enspider

namespace Enspider

theorem map_replace_id (k : String) (v : List TypedFingerprint) :
    ∀ s : Sampled, k ∉ s.map Prod.fst →
      s.map (fun q => if q.1 == k then (k, v) else q) = s := by
  intro s
  induction s with
  | nil => intro _; rfl
  | cons q rest ih =>
    intro h
    rw [List.map_cons]
    have hq : ¬ q.1 = k := by
      intro he
      exact h (by rw [← he]; exact List.mem_map_of_mem Prod.fst (List.mem_cons_self q rest))
    have hq' : (q.1 == k) = false := by simpa using hq
    rw [hq']
    simp only [Bool.false_eq_true, if_false]
    rw [ih (fun hmem => h (List.mem_cons_of_mem _ hmem))]

theorem mapSet_keys_of_mem (s : Sampled) (k : String) (v : List TypedFingerprint)
    (h : s.any (fun p => p.1 == k) = true) :
    (mapSet s k v).map Prod.fst = s.map Prod.fst := by
  unfold mapSet
  rw [if_pos h, List.map_map]
  refine List.map_congr_left ?_
  intro q hq
  by_cases hk : q.1 == k
  · simp only [Function.comp_apply, hk, if_true]
    have : q.1 = k := by simpa using hk
    simp [this]
  · have hk' : ¬ q.1 = k := by simpa using hk
    simp [Function.comp_apply, hk']

theorem mapSet_append_perm :
    ∀ (s : Sampled) (k : String) (p : TypedFingerprint),
      ((s.map Prod.fst).Nodup) → s.any (fun q => q.1 == k) = true →
      List.Perm ((mapSet s k ((mapGet s k).getD [] ++ [p])).map Prod.snd).flatten
        ((s.map Prod.snd).flatten ++ [p]) := by
  intro s
  induction s with
  | nil => intro k p _ h; simp at h
  | cons q rest ih =>
    intro k p hnd hany
    obtain ⟨k', v'⟩ := q
    by_cases hk : k' = k
    · subst hk
      have hget : mapGet ((k', v') :: rest) k' = some v' := by
        unfold mapGet
        rw [List.find?_cons_of_pos _ (by simp)]
        rfl
      have hset : mapSet ((k', v') :: rest) k' ((mapGet ((k', v') :: rest) k').getD [] ++ [p]) =
          (k', v' ++ [p]) :: rest := by
        unfold mapSet
        rw [if_pos hany, List.map_cons]
        have hrest : k' ∉ rest.map Prod.fst := by
          rw [List.map_cons] at hnd
          exact (List.nodup_cons.mp hnd).1
        rw [map_replace_id _ _ rest hrest, hget]
        simp
      rw [hset]
      simp only [List.map_cons, List.flatten_cons]
      rw [List.append_assoc, List.append_assoc]
      exact List.Perm.append_left v' (List.perm_append_comm)
    · have hget : mapGet ((k', v') :: rest) k = mapGet rest k := by
        unfold mapGet
        rw [List.find?_cons_of_neg _ (by simpa using hk)]
      have hanyrest : rest.any (fun q => q.1 == k) = true := by
        rw [List.any_cons] at hany
        simpa [hk] using hany
      have hset : mapSet ((k', v') :: rest) k ((mapGet ((k', v') :: rest) k).getD [] ++ [p]) =
          (k', v') :: mapSet rest k ((mapGet rest k).getD [] ++ [p]) := by
        unfold mapSet
        rw [if_pos hany, if_pos hanyrest, List.map_cons, hget]
        have : ((k', v').1 == k) = false := by simpa using hk
        rw [this]
        simp
      rw [hset]
      simp only [List.map_cons, List.flatten_cons]
      have hndrest : (rest.map Prod.fst).Nodup := by
        rw [List.map_cons] at hnd
        exact (List.nodup_cons.mp hnd).2
      have hperm := ih k p hndrest hanyrest
      rw [List.append_assoc]
      exact List.Perm.append_left v' hperm

/-- `Map.set` with a fresh key appends. -/
theorem mapSet_not_mem (s : Sampled) (k : String) (v : List TypedFingerprint)
    (h : ¬ (s.any (fun p => p.1 == k) = true)) :
    mapSet s k v = s ++ [(k, v)] := by
  unfold mapSet
  rw [if_neg h]

/-- `Map.get` at an absent key returns nothing. -/
theorem mapGet_eq_none (s : Sampled) (k : String)
    (h : ¬ (s.any (fun p => p.1 == k) = true)) :
    mapGet s k = none := by
  unfold mapGet
  rw [List.find?_eq_none.mpr ?_]
  · rfl
  · intro p hp hpk
    exact h (List.any_eq_true.mpr ⟨p, hp, hpk⟩)

/-- Whatever the input ids are, `Map.set` keeps the stored keys pairwise
distinct: overwrite replaces in place, insert appends a fresh key. -/
theorem mapSet_keys_nodup (s : Sampled) (k : String) (v : List TypedFingerprint)
    (hnd : ((s.map Prod.fst).Nodup)) :
    (((mapSet s k v).map Prod.fst).Nodup) := by
  by_cases h : s.any (fun p => p.1 == k) = true
  · rw [mapSet_keys_of_mem s k v h]
    exact hnd
  · rw [mapSet_not_mem s k v h, List.map_append]
    rw [List.nodup_append]
    refine ⟨hnd, by simp, ?_⟩
    intro a ha hb
    simp only [List.map_cons, List.map_nil, List.mem_singleton] at hb
    subst hb
    obtain ⟨p, hp, hpk⟩ := List.mem_map.mp ha
    exact h (List.any_eq_true.mpr ⟨p, hp, by simp [hpk]⟩)

/-- Every entry of `Map.set` is the new binding or one of the old ones. -/
theorem mapSet_entry_sub (s : Sampled) (k : String) (v : List TypedFingerprint) :
    ∀ q ∈ mapSet s k v, q = (k, v) ∨ q ∈ s := by
  intro q hq
  unfold mapSet at hq
  by_cases h : s.any (fun p => p.1 == k) = true
  · rw [if_pos h] at hq
    obtain ⟨p, hp, hpq⟩ := List.mem_map.mp hq
    by_cases hk : (p.1 == k) = true
    · rw [if_pos hk] at hpq
      exact Or.inl hpq.symm
    · rw [if_neg hk] at hpq
      exact Or.inr (hpq ▸ hp)
  · rw [if_neg h] at hq
    rcases List.mem_append.mp hq with hq | hq
    · exact Or.inr hq
    · rw [List.mem_singleton] at hq
      exact Or.inl hq

end Enspider

namespace Enspider

theorem findPageByType_mem {TC : List TypedCluster} {t : PageType}
    {exclude : List TypedFingerprint} {p : TypedFingerprint} :
    findPageByType TC t exclude = some p →
      p ∈ clusterMembersT TC ∧ p.pageType = t ∧
        p.url ∉ exclude.map (fun e => e.url) := by
  induction TC with
  | nil => intro h; simp [findPageByType] at h
  | cons c cs ih =>
    intro h
    unfold findPageByType at h
    cases hf : c.members.find? (fun fp =>
        fp.pageType == t && !((exclude.map (fun e => e.url)).contains fp.url)) with
    | some page =>
      rw [hf] at h
      cases h
      have hmem := List.mem_of_find?_eq_some hf
      have hpred := List.find?_some hf
      rw [Bool.and_eq_true] at hpred
      refine ⟨?_, ?_, ?_⟩
      · unfold clusterMembersT
        rw [List.map_cons, List.flatten_cons]
        exact List.mem_append.mpr (Or.inl hmem)
      · simpa using hpred.1
      · simpa using hpred.2
    | none =>
      rw [hf] at h
      obtain ⟨h1, h2, h3⟩ := ih h
      refine ⟨?_, h2, h3⟩
      unfold clusterMembersT at h1 ⊢
      rw [List.map_cons, List.flatten_cons]
      exact List.mem_append.mpr (Or.inr h1)

theorem findPageByType_none {TC : List TypedCluster} {t : PageType}
    {exclude : List TypedFingerprint} :
    findPageByType TC t exclude = none →
      ∀ m ∈ clusterMembersT TC, m.pageType = t →
        m.url ∈ exclude.map (fun e => e.url) := by
  induction TC with
  | nil => intro _ m hm; simp [clusterMembersT] at hm
  | cons c cs ih =>
    intro h m hm ht
    unfold findPageByType at h
    cases hf : c.members.find? (fun fp =>
        fp.pageType == t && !((exclude.map (fun e => e.url)).contains fp.url)) with
    | some page => rw [hf] at h; simp at h
    | none =>
      rw [hf] at h
      unfold clusterMembersT at hm
      rw [List.map_cons, List.flatten_cons] at hm
      rcases List.mem_append.mp hm with hm | hm
      · have := List.find?_eq_none.mp hf m hm
        rw [Bool.and_eq_true] at this
        push_neg at this
        by_contra hnot
        exact this (by simpa using ht) (by simpa using hnot)
      · exact ih h m hm ht

theorem addToSample_spec (TC : List TypedCluster) (sampled : Sampled)
    (p : TypedFingerprint)
    (hknd : ((sampled.map Prod.fst).Nodup))
    (hp : p ∈ clusterMembersT TC) :
    (((addToSample sampled TC p).map Prod.fst).Nodup) ∧
      List.Perm ((addToSample sampled TC p).map Prod.snd).flatten
        ((sampled.map Prod.snd).flatten ++ [p]) := by
  unfold addToSample
  have hfind : ∃ c, TC.find? (fun c => c.members.any (fun m => m.url == p.url)) = some c := by
    unfold clusterMembersT at hp
    obtain ⟨ms, hms, hpms⟩ := List.mem_flatten.mp hp
    obtain ⟨c₀, hc₀, hmsc⟩ := List.mem_map.mp hms
    subst hmsc
    have hpred : (fun c : TypedCluster => c.members.any (fun m => m.url == p.url)) c₀ = true := by
      simp only [List.any_eq_true]
      exact ⟨p, hpms, by simp⟩
    rcases hfs : TC.find? (fun c => c.members.any (fun m => m.url == p.url)) with _ | c
    · exact absurd (List.find?_eq_none.mp hfs c₀ hc₀ hpred) (by simp)
    · exact ⟨c, hfs⟩
  obtain ⟨c, hc⟩ := hfind
  rw [hc]
  dsimp only
  by_cases hkey : sampled.any (fun q => q.1 == c.id) = true
  · exact ⟨by rw [mapSet_keys_of_mem sampled c.id _ hkey]; exact hknd,
      mapSet_append_perm sampled c.id p hknd hkey⟩
  · refine ⟨mapSet_keys_nodup sampled c.id _ hknd, ?_⟩
    rw [mapGet_eq_none sampled c.id hkey, mapSet_not_mem sampled c.id _ hkey]
    simp

theorem initialSample_eq (maxPer : Nat) :
    ∀ (TC : List TypedCluster) (s : Sampled),
      ((TC.map TypedCluster.id).Nodup) →
      (∀ k ∈ s.map Prod.fst, k ∉ TC.map TypedCluster.id) →
      TC.foldl (fun s c => mapSet s c.id (selectDiversePages c.members maxPer)) s =
        s ++ TC.map (fun c => (c.id, selectDiversePages c.members maxPer)) := by
  intro TC
  induction TC with
  | nil => intro s _ _; simp
  | cons c TCrest ih =>
    intro s hnd h
    rw [List.foldl_cons]
    have hcid : c.id ∈ (c :: TCrest).map TypedCluster.id :=
      List.mem_map_of_mem TypedCluster.id (List.mem_cons_self c TCrest)
    have hnotin : ¬ (s.any (fun p => p.1 == c.id) = true) := by
      intro hany
      obtain ⟨q, hq, hq2⟩ := List.any_eq_true.mp hany
      have hmem : q.1 ∈ s.map Prod.fst := List.mem_map_of_mem Prod.fst hq
      have heq : q.1 = c.id := by simpa using hq2
      exact h q.1 hmem (heq ▸ hcid)
    have hset : mapSet s c.id (selectDiversePages c.members maxPer) =
        s ++ [(c.id, selectDiversePages c.members maxPer)] := by
      unfold mapSet
      rw [if_neg hnotin]
    rw [hset]
    rw [List.map_cons] at hnd
    have hnd' := List.nodup_cons.mp hnd
    rw [ih (s ++ [(c.id, selectDiversePages c.members maxPer)]) hnd'.2 ?_]
    · simp
    · intro k hk
      rw [List.map_append] at hk
      rcases List.mem_append.mp hk with hk | hk
      · intro hmem
        exact h k hk (List.mem_cons_of_mem _ (by simpa using hmem))
      · simp only [List.map_cons, List.map_nil, List.mem_singleton] at hk
        subst hk
        exact hnd'.1

end Enspider

namespace Enspider

/-- The invariant `ensurePageTypes` maintains between the sample map and the
flat `allSampled` list: the map's keys are pairwise distinct (JavaScript
`Map` keys are unique whatever ids the clusters carry); its flattened values
are (up to order) the `allSampled` list; everything sampled is a cluster
member; and the sampled URLs are pairwise distinct. -/
def SampInv (TC : List TypedCluster) (st : Sampled × List TypedFingerprint) : Prop :=
  ((st.1.map Prod.fst).Nodup) ∧
  List.Perm (st.1.map Prod.snd).flatten st.2 ∧
  (∀ x ∈ st.2, x ∈ clusterMembersT TC) ∧
  ((st.2.map (fun fp => fp.url)).Nodup)

theorem backfill_inv (TC : List TypedCluster) (t : PageType)
    (hund : (((clusterMembersT TC).map (fun fp => fp.url)).Nodup)) :
    ∀ (n : Nat) (st : Sampled × List TypedFingerprint), SampInv TC st →
      SampInv TC (backfill TC t n st) ∧
        countType t (backfill TC t n st).2 ≥
          min (countType t st.2 + n) (countType t (clusterMembersT TC)) := by
  intro n
  induction n with
  | zero =>
    intro st hinv
    refine ⟨hinv, ?_⟩
    show countType t st.2 ≥ min (countType t st.2 + 0) (countType t (clusterMembersT TC))
    have := Nat.min_le_left (countType t st.2 + 0) (countType t (clusterMembersT TC))
    omega
  | succ n ih =>
    intro st hinv
    obtain ⟨sampled, all⟩ := st
    obtain ⟨hkeys, hperm, hsub, hnd⟩ := hinv
    have hunf : backfill TC t (n + 1) (sampled, all) =
        (match findPageByType TC t all with
          | some p => backfill TC t n (addToSample sampled TC p, all ++ [p])
          | none => (sampled, all)) := rfl
    rw [hunf]
    cases hf : findPageByType TC t all with
    | none =>
      refine ⟨⟨hkeys, hperm, hsub, hnd⟩, ?_⟩
      have hexh := findPageByType_none hf
      have hmem : ∀ m ∈ clusterMembersT TC, m.pageType = t → m ∈ all := by
        intro m hm ht
        have hurl := hexh m hm ht
        obtain ⟨x, hx, hxu⟩ := List.mem_map.mp hurl
        have hxm := hsub x hx
        have : x = m := List.inj_on_of_nodup_map hund hxm hm hxu
        exact this ▸ hx
      have hsubfilter : ∀ m ∈ (clusterMembersT TC).filter (fun fp => fp.pageType == t),
          m ∈ all.filter (fun fp => fp.pageType == t) := by
        intro m hm
        rw [List.mem_filter] at hm ⊢
        exact ⟨hmem m hm.1 (by simpa using hm.2), hm.2⟩
      have hndfilter : ((clusterMembersT TC).filter (fun fp => fp.pageType == t)).Nodup :=
        List.Nodup.filter _ (List.Nodup.of_map _ hund)
      have hlen := List.Subperm.length_le (List.subperm_of_subset hndfilter hsubfilter)
      have hcount : countType t all ≥ countType t (clusterMembersT TC) := by
        unfold countType
        rw [List.countP_eq_length_filter, List.countP_eq_length_filter]
        exact hlen
      show countType t all ≥ _
      omega
    | some p =>
      obtain ⟨hpmem, hpt, hpurl⟩ := findPageByType_mem hf
      have hadd := addToSample_spec TC sampled p hkeys hpmem
      have hinv' : SampInv TC (addToSample sampled TC p, all ++ [p]) := by
        refine ⟨hadd.1, ?_, ?_, ?_⟩
        · exact hadd.2.trans (List.Perm.append_right [p] hperm)
        · intro x hx
          rcases List.mem_append.mp hx with hx | hx
          · exact hsub x hx
          · rw [List.mem_singleton] at hx
            subst hx
            exact hpmem
        · rw [List.map_append]
          simp [List.nodup_append, hnd, hpurl]
      have hrec := ih (addToSample sampled TC p, all ++ [p]) hinv'
      refine ⟨hrec.1, ?_⟩
      have h2 := hrec.2
      have e1 : countType t ((addToSample sampled TC p, all ++ [p]) :
          Sampled × List TypedFingerprint).2 = countType t all + 1 := by
        show countType t (all ++ [p]) = countType t all + 1
        unfold countType
        rw [List.countP_append]
        simp [hpt]
      rw [e1] at h2
      show countType t (backfill TC t n (addToSample sampled TC p, all ++ [p])).2 ≥
        min (countType t (((sampled, all)) : Sampled × List TypedFingerprint).2 + (n + 1))
          (countType t (clusterMembersT TC))
      have e2 : countType t (((sampled, all)) : Sampled × List TypedFingerprint).2 =
          countType t all := rfl
      rw [e2]
      have e3 : countType t all + 1 + n = countType t all + (n + 1) := by omega
      rw [e3] at h2
      exact h2

/-- `backfill` only ever appends to the flat sampled list. -/
theorem backfill_all_extend (TC : List TypedCluster) (t : PageType) :
    ∀ (n : Nat) (st : Sampled × List TypedFingerprint),
      ∃ ext, (backfill TC t n st).2 = st.2 ++ ext := by
  intro n
  induction n with
  | zero => intro st; exact ⟨[], by simp [backfill]⟩
  | succ n ih =>
    intro st
    obtain ⟨sampled, all⟩ := st
    show ∃ ext, (match findPageByType TC t all with
        | some p => backfill TC t n (addToSample sampled TC p, all ++ [p])
        | none => (sampled, all)).2 = all ++ ext
    cases hf : findPageByType TC t all with
    | none => exact ⟨[], by simp⟩
    | some p =>
      obtain ⟨ext, hext⟩ := ih (addToSample sampled TC p, all ++ [p])
      exact ⟨p :: ext, by rw [hext]; simp⟩

end Enspider

namespace Enspider

theorem forall₂_map_map {R : List TypedFingerprint → List TypedFingerprint → Prop}
    (f g : TypedCluster → List TypedFingerprint) :
    ∀ l : List TypedCluster, (∀ c ∈ l, R (f c) (g c)) →
      List.Forall₂ R (l.map f) (l.map g) := by
  intro l
  induction l with
  | nil => intro _; simp
  | cons c cs ih =>
    intro h
    simp only [List.map_cons]
    exact List.Forall₂.cons (h c (List.mem_cons_self c cs))
      (ih (fun c' hc' => h c' (List.mem_cons_of_mem c hc')))

theorem flatten_sub_of_forall₂ :
    ∀ {L M : List (List TypedFingerprint)},
      List.Forall₂ (fun a b => (∀ x ∈ a, x ∈ b) ∧ a.Nodup) L M →
      ∀ x ∈ L.flatten, x ∈ M.flatten := by
  intro L M h
  induction h with
  | nil => intro x hx; simp at hx
  | @cons a b L' M' hab _ ih =>
    intro x hx
    rw [List.flatten_cons] at hx ⊢
    rcases List.mem_append.mp hx with hx | hx
    · exact List.mem_append.mpr (Or.inl (hab.1 x hx))
    · exact List.mem_append.mpr (Or.inr (ih x hx))

theorem flatten_urls_nodup_of_forall₂ :
    ∀ {L M : List (List TypedFingerprint)},
      List.Forall₂ (fun a b => (∀ x ∈ a, x ∈ b) ∧ a.Nodup) L M →
      ((M.flatten.map (fun fp => fp.url)).Nodup) →
      ((L.flatten.map (fun fp => fp.url)).Nodup) := by
  intro L M h
  induction h with
  | nil => intro _; simp
  | @cons a b L' M' hab htail ih =>
    intro hM
    rw [List.flatten_cons, List.map_append, List.nodup_append] at hM ⊢
    obtain ⟨hb, hMf, hdisj⟩ := hM
    refine ⟨?_, ih hMf, ?_⟩
    · exact nodup_map_url_of_subset hab.1 hab.2 hb
    · intro u hu hu'
      obtain ⟨x, hx, hxu⟩ := List.mem_map.mp hu
      obtain ⟨y, hy, hyu⟩ := List.mem_map.mp hu'
      have h1 : u ∈ b.map (fun fp => fp.url) := by
        rw [← hxu]
        exact List.mem_map_of_mem _ (hab.1 x hx)
      have h2 : u ∈ M'.flatten.map (fun fp => fp.url) := by
        rw [← hyu]
        exact List.mem_map_of_mem _ (flatten_sub_of_forall₂ htail y hy)
      exact hdisj h1 h2

end Enspider

namespace Enspider

theorem ensurePageTypes_spec (TC : List TypedCluster) (sampled : Sampled)
    (hund : (((clusterMembersT TC).map (fun fp => fp.url)).Nodup))
    (hinv : SampInv TC (sampled, (sampled.map Prod.snd).flatten)) :
    ∃ allF : List TypedFingerprint,
      List.Perm (((ensurePageTypes sampled TC).map Prod.snd).flatten) allF ∧
        ((allF.map (fun fp => fp.url)).Nodup) ∧
        countType PageType.detail allF ≥
          min 3 (countType PageType.detail (clusterMembersT TC)) ∧
        countType PageType.list allF ≥
          min 3 (countType PageType.list (clusterMembersT TC)) := by
  set all0 := (sampled.map Prod.snd).flatten with hall0
  set d0 := countType PageType.detail all0 with hd0
  set st1 := (if d0 < 3 then backfill TC PageType.detail (3 - d0) (sampled, all0)
    else (sampled, all0)) with hst1
  set l1 := countType PageType.list st1.2 with hl1
  set st2 := (if l1 < 3 then backfill TC PageType.list (3 - l1) st1 else st1) with hst2
  have hunf : ensurePageTypes sampled TC = st2.1 := rfl
  have h1 : SampInv TC st1 ∧ countType PageType.detail st1.2 ≥
      min 3 (countType PageType.detail (clusterMembersT TC)) := by
    by_cases hd : d0 < 3
    · rw [hst1, if_pos hd]
      have hb := backfill_inv TC PageType.detail hund (3 - d0) (sampled, all0) hinv
      refine ⟨hb.1, ?_⟩
      have hb2 := hb.2
      have e : ((sampled, all0) : Sampled × List TypedFingerprint).2 = all0 := rfl
      rw [e, ← hd0] at hb2
      omega
    · rw [hst1, if_neg hd]
      refine ⟨hinv, ?_⟩
      have e : ((sampled, all0) : Sampled × List TypedFingerprint).2 = all0 := rfl
      rw [e, ← hd0]
      omega
  obtain ⟨hinv1, hfloor1⟩ := h1
  have h2 : SampInv TC st2 ∧ countType PageType.list st2.2 ≥
      min 3 (countType PageType.list (clusterMembersT TC)) ∧
      countType PageType.detail st2.2 ≥ countType PageType.detail st1.2 := by
    by_cases hl : l1 < 3
    · rw [hst2, if_pos hl]
      have hb := backfill_inv TC PageType.list hund (3 - l1) st1 hinv1
      refine ⟨hb.1, ?_, ?_⟩
      · have hb2 := hb.2
        rw [← hl1] at hb2
        omega
      · obtain ⟨ext, hext⟩ := backfill_all_extend TC PageType.list (3 - l1) st1
        rw [hext]
        unfold countType
        rw [List.countP_append]
        omega
    · rw [hst2, if_neg hl]
      refine ⟨hinv1, ?_, le_refl _⟩
      rw [← hl1]
      omega
  obtain ⟨hinv2, hfloorL, hpres⟩ := h2
  refine ⟨st2.2, ?_, hinv2.2.2.2, by omega, hfloorL⟩
  rw [hunf]
  exact hinv2.2.1

end Enspider

namespace Enspider

/-- The typed clusters `sampleFromClusters` builds from its input. -/
def typeClusters (clusters : List PageCluster) (pt : String → PageType) :
    List TypedCluster :=
  clusters.map (fun c =>
    TypedCluster.mk c.id c.category
      (c.members.map (fun fp => { toDOMFingerprint := fp, pageType := pt fp.url })))

theorem sampleFromClusters_def (clusters : List PageCluster) (maxPer : Nat)
    (pt : String → PageType) :
    sampleFromClusters clusters maxPer pt =
      ensurePageTypes
        ((typeClusters clusters pt).foldl
          (fun s c => mapSet s c.id (selectDiversePages c.members maxPer)) [])
        (typeClusters clusters pt) := rfl

/-- The `Map`-building fold over the clusters keeps its keys pairwise
distinct and every stored binding of the shape the loop writes — for some
input cluster, whatever the cluster ids are (a duplicate id overwrites the
earlier binding in place). -/
theorem initFold_shape (maxPer : Nat) (TC₀ : List TypedCluster) :
    ∀ (TC : List TypedCluster) (s : Sampled),
      (∀ c ∈ TC, c ∈ TC₀) →
      ((s.map Prod.fst).Nodup) →
      (∀ q ∈ s, ∃ c ∈ TC₀, q = (c.id, selectDiversePages c.members maxPer)) →
      (((TC.foldl (fun s c => mapSet s c.id (selectDiversePages c.members maxPer)) s).map
          Prod.fst).Nodup) ∧
        ∀ q ∈ TC.foldl (fun s c => mapSet s c.id (selectDiversePages c.members maxPer)) s,
          ∃ c ∈ TC₀, q = (c.id, selectDiversePages c.members maxPer) := by
  intro TC
  induction TC with
  | nil => intro s _ hnd hshape; exact ⟨hnd, hshape⟩
  | cons c TC' ih =>
    intro s hsub hnd hshape
    rw [List.foldl_cons]
    refine ih (mapSet s c.id (selectDiversePages c.members maxPer))
      (fun c' hc' => hsub c' (List.mem_cons_of_mem c hc'))
      (mapSet_keys_nodup s c.id _ hnd) ?_
    intro q hq
    rcases mapSet_entry_sub s c.id _ q hq with hq | hq
    · exact ⟨c, hsub c (List.mem_cons_self c TC'), hq⟩
    · exact hshape q hq

/-- Globally distinct member URLs make each cluster's member URLs distinct
and the member URLs of two *different* clusters disjoint. -/
theorem cluster_urls_disjoint (TC : List TypedCluster)
    (hund : (((clusterMembersT TC).map (fun fp => fp.url)).Nodup)) :
    (∀ c ∈ TC, ((c.members.map (fun fp => fp.url)).Nodup)) ∧
      ∀ c ∈ TC, ∀ c' ∈ TC, c ≠ c' →
        ∀ x ∈ c.members, ∀ y ∈ c'.members, x.url ≠ y.url := by
  have h1 : (((TC.map (fun c => c.members.map (fun fp => fp.url))).flatten).Nodup) := by
    unfold clusterMembersT at hund
    rw [List.map_flatten, List.map_map] at hund
    exact hund
  rw [List.nodup_flatten] at h1
  obtain ⟨hchunk, hpair⟩ := h1
  constructor
  · intro c hc
    exact hchunk _ (List.mem_map_of_mem _ hc)
  · rw [List.pairwise_map] at hpair
    have hsymm : Symmetric (fun c c' : TypedCluster =>
        List.Disjoint (c.members.map (fun fp => fp.url))
          (c'.members.map (fun fp => fp.url))) :=
      fun a b h => h.symm
    intro c hc c' hc' hne x hx y hy hxy
    have hd := hpair.forall hsymm hc hc' hne
    have h2 : x.url ∈ c'.members.map (fun fp => fp.url) := by
      rw [hxy]
      exact List.mem_map_of_mem _ hy
    exact hd (List.mem_map_of_mem _ hx) h2

/-- A key-distinct sample map whose bindings are per-cluster selections has
URL-distinct flattened values, all of them cluster members: distinct keys
pick distinct clusters, whose member URLs are globally disjoint. -/
theorem shape_flatten_spec (maxPer : Nat) (TC₀ : List TypedCluster)
    (hund : (((clusterMembersT TC₀).map (fun fp => fp.url)).Nodup)) :
    ∀ s : Sampled, ((s.map Prod.fst).Nodup) →
      (∀ q ∈ s, ∃ c ∈ TC₀, q = (c.id, selectDiversePages c.members maxPer)) →
      ((((s.map Prod.snd).flatten.map (fun fp => fp.url)).Nodup)) ∧
        ∀ x ∈ (s.map Prod.snd).flatten, x ∈ clusterMembersT TC₀ := by
  obtain ⟨hchunk, hdisj⟩ := cluster_urls_disjoint TC₀ hund
  intro s
  induction s with
  | nil => intro _ _; exact ⟨by simp, by simp⟩
  | cons q rest ih =>
    intro hnd hshape
    obtain ⟨c, hc, hq⟩ := hshape q (List.mem_cons_self q rest)
    rw [List.map_cons] at hnd
    have hnd' := List.nodup_cons.mp hnd
    have hih := ih hnd'.2 (fun q' hq' => hshape q' (List.mem_cons_of_mem q hq'))
    rw [List.map_cons, List.flatten_cons]
    have hqsnd : q.2 = selectDiversePages c.members maxPer := by rw [hq]
    have hqfst : q.1 = c.id := by rw [hq]
    have hmemc : ∀ x ∈ q.2, x ∈ c.members := by
      rw [hqsnd]
      exact selectDiversePages_subset c.members maxPer
    have hmem : ∀ x ∈ q.2 ++ (rest.map Prod.snd).flatten, x ∈ clusterMembersT TC₀ := by
      intro x hx
      rcases List.mem_append.mp hx with hx | hx
      · exact List.mem_flatten.mpr ⟨c.members, List.mem_map_of_mem _ hc, hmemc x hx⟩
      · exact hih.2 x hx
    refine ⟨?_, hmem⟩
    rw [List.map_append, List.nodup_append]
    refine ⟨?_, hih.1, ?_⟩
    · have hcm : c.members.Nodup := List.Nodup.of_map _ (hchunk c hc)
      have hqnd : q.2.Nodup := by
        rw [hqsnd]
        exact selectDiversePages_nodup c.members maxPer hcm
      exact nodup_map_url_of_subset hmemc hqnd (hchunk c hc)
    · intro u hu hu'
      obtain ⟨x, hx, hxu⟩ := List.mem_map.mp hu
      obtain ⟨y, hy, hyu⟩ := List.mem_map.mp hu'
      obtain ⟨ms, hms, hyms⟩ := List.mem_flatten.mp hy
      obtain ⟨q', hq', hmsq⟩ := List.mem_map.mp hms
      obtain ⟨c', hc', hq'eq⟩ := hshape q' (List.mem_cons_of_mem q hq')
      have hcne : c ≠ c' := by
        intro he
        have h1 : q'.1 = c'.id := by rw [hq'eq]
        have h2 : q'.1 ∈ rest.map Prod.fst := List.mem_map_of_mem Prod.fst hq'
        rw [h1, ← he, ← hqfst] at h2
        exact hnd'.1 h2
      have hymem : y ∈ c'.members := by
        have hsnd : q'.2 = selectDiversePages c'.members maxPer := by rw [hq'eq]
        have hysel : y ∈ q'.2 := by rw [hmsq]; exact hyms
        exact selectDiversePages_subset c'.members maxPer y (hsnd ▸ hysel)
      exact hdisj c hc c' hc' hcne x (hmemc x hx) y hymem (hxu.trans hyu.symm)

/-- End-to-end invariant of the sampler: whatever the cluster ids are, when
the member URLs are globally pairwise distinct the final sample is (up to
order) a URL-distinct list of member fingerprints meeting both type
floors. -/
theorem sampleFromClusters_inv (clusters : List PageCluster) (maxPer : Nat)
    (pt : String → PageType)
    (hund : (((clusterMembersT (typeClusters clusters pt)).map (fun fp => fp.url)).Nodup)) :
    ∃ allF : List TypedFingerprint,
      List.Perm (((sampleFromClusters clusters maxPer pt).map Prod.snd).flatten) allF ∧
        ((allF.map (fun fp => fp.url)).Nodup) ∧
        countType PageType.detail allF ≥
          min 3 (countType PageType.detail (clusterMembersT (typeClusters clusters pt))) ∧
        countType PageType.list allF ≥
          min 3 (countType PageType.list (clusterMembersT (typeClusters clusters pt))) := by
  set TC := typeClusters clusters pt with hTC
  have hfold := initFold_shape maxPer TC TC [] (fun c hc => hc) (by simp) (by simp)
  set initial := TC.foldl
    (fun s c => mapSet s c.id (selectDiversePages c.members maxPer)) [] with hinitial
  have hshape := shape_flatten_spec maxPer TC hund initial hfold.1 hfold.2
  have hinv0 : SampInv TC (initial, (initial.map Prod.snd).flatten) :=
    ⟨hfold.1, List.Perm.refl _, hshape.2, hshape.1⟩
  have hens := ensurePageTypes_spec TC initial hund hinv0
  rw [sampleFromClusters_def]
  exact hens

end Enspider

namespace Enspider

/-- **C9 (amended).** When the input clusters' member URLs are globally
pairwise distinct, the flat list produced by `getSampledPages` from
`sampleFromClusters` contains no two fingerprints with the same URL. -/
theorem getSampledPages_nodup_urls (clusters : List PageCluster) (maxPer : Nat)
    (pt : String → PageType)
    (hund : (((clusterMembersT (typeClusters clusters pt)).map (fun fp => fp.url)).Nodup)) :
    (((getSampledPages (sampleFromClusters clusters maxPer pt)).map
      (fun fp => fp.url)).Nodup) := by
  obtain ⟨allF, hperm, hnd, _, _⟩ := sampleFromClusters_inv clusters maxPer pt hund
  have hpermmap := List.Perm.map (fun fp : TypedFingerprint => fp.url) hperm
  unfold getSampledPages
  exact hpermmap.nodup_iff.mpr hnd

/-- **C6 (amended).** When the input clusters' member URLs are globally
pairwise distinct, the flattened sample contains at least
`min(3, available)` detail-type and at least `min(3, available)` list-type
fingerprints, where `available` counts the members of that type across all
clusters. -/
theorem sampler_type_floor (clusters : List PageCluster) (maxPer : Nat)
    (pt : String → PageType)
    (hund : (((clusterMembersT (typeClusters clusters pt)).map (fun fp => fp.url)).Nodup)) :
    countType PageType.detail (getSampledPages (sampleFromClusters clusters maxPer pt)) ≥
        min 3 (countType PageType.detail (clusterMembersT (typeClusters clusters pt))) ∧
      countType PageType.list (getSampledPages (sampleFromClusters clusters maxPer pt)) ≥
        min 3 (countType PageType.list (clusterMembersT (typeClusters clusters pt))) := by
  obtain ⟨allF, hperm, _, hd, hl⟩ := sampleFromClusters_inv clusters maxPer pt hund
  have e1 : countType PageType.detail
      (getSampledPages (sampleFromClusters clusters maxPer pt)) =
      countType PageType.detail allF := List.Perm.countP_eq _ hperm
  have e2 : countType PageType.list
      (getSampledPages (sampleFromClusters clusters maxPer pt)) =
      countType PageType.list allF := List.Perm.countP_eq _ hperm
  rw [e1, e2]
  exact ⟨hd, hl⟩

/-- Fingerprint for the C6 witness. -/
def fpW6 : DOMFingerprint := ⟨"/w6a", ["html"], [], 1, 1, 1⟩

/-- Second fingerprint for the C6 witness, with a distinct URL. -/
def fpW6b : DOMFingerprint := ⟨"/w6b", ["html"], [], 1, 1, 1⟩

/-- Clusters for the C6 witness: a *duplicate* id, so the second `Map.set`
overwrites the first selection, which the backfill then recovers. -/
def w6clusters : List PageCluster :=
  [⟨"w6", "other", [fpW6], fpW6⟩, ⟨"w6", "other", [fpW6b], fpW6b⟩]

/-- Page typing for the C6 witness. -/
def w6pt : String → PageType := fun _ => PageType.detail

theorem sampler_type_floor_witness :
    ((((clusterMembersT (typeClusters w6clusters w6pt)).map (fun fp => fp.url)).Nodup)) ∧
      (countType PageType.detail (getSampledPages (sampleFromClusters w6clusters 3 w6pt)) ≥
          min 3 (countType PageType.detail (clusterMembersT (typeClusters w6clusters w6pt))) ∧
        countType PageType.list (getSampledPages (sampleFromClusters w6clusters 3 w6pt)) ≥
          min 3 (countType PageType.list (clusterMembersT (typeClusters w6clusters w6pt)))) :=
  ⟨by decide, sampler_type_floor w6clusters 3 w6pt (by decide)⟩

/-- Fingerprint for the C9 witness. -/
def fpW9 : DOMFingerprint := ⟨"/w9a", ["html"], [], 1, 1, 1⟩

/-- Second fingerprint for the C9 witness, with a distinct URL. -/
def fpW9b : DOMFingerprint := ⟨"/w9b", ["html"], [], 1, 1, 1⟩

/-- Clusters for the C9 witness: a duplicate id exercising the `Map`
overwrite. -/
def w9clusters : List PageCluster :=
  [⟨"w9", "other", [fpW9], fpW9⟩, ⟨"w9", "other", [fpW9b], fpW9b⟩]

/-- Page typing for the C9 witness. -/
def w9pt : String → PageType := fun _ => PageType.other

theorem getSampledPages_nodup_urls_witness :
    ((((clusterMembersT (typeClusters w9clusters w9pt)).map (fun fp => fp.url)).Nodup)) ∧
      (((getSampledPages (sampleFromClusters w9clusters 3 w9pt)).map
        (fun fp => fp.url)).Nodup) :=
  ⟨by decide, getSampledPages_nodup_urls w9clusters 3 w9pt (by decide)⟩

/-- C6 counterexample: two detail-type members sharing a URL. -/
def c6D1 : DOMFingerprint := ⟨"u", ["t"], [], 1, 1, 1⟩

/-- C6 counterexample: a second detail-type member with the same URL. -/
def c6D2 : DOMFingerprint := ⟨"u", ["t"], [], 2, 1, 1⟩

/-- C6 counterexample: an other-type member. -/
def c6X : DOMFingerprint := ⟨"w", ["t"], [], 1, 1, 1⟩

/-- C6 counterexample cluster. -/
def c6cl : PageCluster := ⟨"c1", "other", [c6D1, c6D2, c6X], c6D1⟩

/-- C6 counterexample page typing: URL `"u"` is detail, everything else
other. -/
def c6pt : String → PageType := fun s => if s == "u" then PageType.detail else PageType.other

/-- **C6 (counterexample).**  With `maxPerCategory = 1` and a cluster holding
two detail-type fingerprints that share a URL plus one other-type page, the
sample keeps one detail page while two detail fingerprints are available, so
the flattened sample falls short of `min(3, available) = 2`: the backfill
excludes candidates by sampled URL, not by sampled fingerprint. -/
theorem sampler_type_floor_counterexample :
    countType PageType.detail (getSampledPages (sampleFromClusters [c6cl] 1 c6pt)) = 1 ∧
      countType PageType.detail (clusterMembersT (typeClusters [c6cl] c6pt)) = 2 ∧
      ¬ (countType PageType.detail (getSampledPages (sampleFromClusters [c6cl] 1 c6pt)) ≥
          min 3 (countType PageType.detail (clusterMembersT (typeClusters [c6cl] c6pt)))) := by
  decide

/-- C9 counterexample fingerprint, shared by two clusters. -/
def c9Y : DOMFingerprint := ⟨"u", ["t"], [], 1, 1, 1⟩

/-- C9 counterexample clusters: two singleton clusters holding the same
fingerprint. -/
def c9clusters : List PageCluster :=
  [⟨"c1", "other", [c9Y], c9Y⟩, ⟨"c2", "other", [c9Y], c9Y⟩]

/-- **C9 (counterexample).**  `getSampledPages` performs no URL
deduplication: when two input clusters contain the same URL, the flat output
lists it twice. -/
theorem getSampledPages_dup_counterexample :
    (getSampledPages (sampleFromClusters c9clusters 3 (fun _ => PageType.other))).map
        (fun fp => fp.url) = ["u", "u"] ∧
      ¬ (((getSampledPages (sampleFromClusters c9clusters 3 (fun _ => PageType.other))).map
        (fun fp => fp.url)).Nodup) := by
  decide

end Enspider

namespace Enspider

/-! ### Multi-viewport scanner (`src/checker/multi-viewport-scanner.ts`) and
error detector (`src/checker/error-detector.ts`)

The browser is an external collaborator: every browser interaction of one
viewport pass (context creation, navigation, waits, the checker scripts, the
screenshot, the two `page.evaluate` calls, closing) is modelled by an
explicit environment record whose `Except` fields say whether that step
returned a value or threw.  The scanner logic itself — ordering, the
`try/catch` structure, issue tagging and aggregation — is translated from
the source. -/

/-- An `Issue` before the scanner attaches the viewport tag
(`Omit<Issue, 'viewport'>` in the source). -/
structure Issue0 where
  type : String
  severity : String
  message : String
deriving DecidableEq, Repr, Inhabited

/-- `Issue` from `src/types.ts`. -/
structure Issue extends Issue0 where
  viewport : String
deriving DecidableEq, Repr, Inhabited

/-- A viewport mode (`getViewportModes` in `src/utils/page-utils.ts`); the
pixel dimensions and user-agent strings are driver configuration and do not
influence the scanner logic modelled here. -/
structure ViewportMode where
  name : String
  isSpider : Bool
deriving DecidableEq, Repr, Inhabited

/-- The four modes, in the order `getViewportModes` returns them. -/
def viewportModes : List ViewportMode :=
  [⟨"pc_normal", false⟩, ⟨"mobile_normal", false⟩,
   ⟨"pc_spider", true⟩, ⟨"mobile_spider", true⟩]

/-- The `config.checks` toggles the scanner consults. -/
structure ChecksConfig where
  viewportOverflow : Bool
  horizontalScroll : Bool
  jsErrors : Bool
  brokenImages : Bool
deriving DecidableEq, Repr, Inhabited

/-- What the error detector's `page.evaluate` returns when it succeeds. -/
structure EvalData where
  brokenImages : List String
  errorTexts : List String
  requestId : Option String
deriving DecidableEq, Repr, Inhabited

deriving instance DecidableEq for Except

/-- Environment of one `ErrorDetector.detectErrors` call: the console errors
collected during the wait, and the outcome of the page evaluation. -/
structure DetectorEnv where
  consoleErrors : List String
  evalResult : Except String EvalData
deriving DecidableEq, Repr, Inhabited

/-- The `ignoredJsErrorPatterns` allowlist from the source. -/
def ignoredJsErrorPatterns : List String :=
  ["[GSI_LOGGER]", "FedCM get() rejects with TypeError",
   "IdentityCredentialRequestOptionsMode"]

/-- `ErrorDetector.detectErrors`.  `httpStatus` is `response?.status()` from
the caller (`none` when the response was `null`/`undefined`); the JavaScript
truthiness test `if (httpStatus && ...)` makes status 0 fall through. -/
def detectErrors (httpStatus : Option Nat) (env : DetectorEnv) : List Issue0 :=
  let issues0 : List Issue0 :=
    match httpStatus with
    | some h =>
      if h ≠ 0 ∧ h ≠ 200 ∧ h ≠ 304 then
        [⟨"http_error", "error", s!"HTTP status code {h} (expected 200 or 304)"⟩]
      else []
    | none => []
  let issues1 : List Issue0 :=
    match env.evalResult with
    | Except.ok d =>
      let withImgs := issues0 ++
        d.brokenImages.map (fun src => (⟨"broken_image", "warning", s!"Broken image: {src}"⟩ : Issue0))
      let withTexts := withImgs ++
        d.errorTexts.map (fun t =>
          (⟨"error_text", "error", s!"Error text detected on page: \"{t}\""⟩ : Issue0))
      let rid : Option String :=
        match d.requestId with
        | some s => if s = "" then none else some s
        | none => none
      match rid with
      | some r =>
        if d.errorTexts ≠ [] ∨ withTexts ≠ [] then
          withTexts ++ [⟨"request_id", "info", s!"Request ID: {r}"⟩]
        else withTexts
      | none => withTexts
    | Except.error _ => issues0
  issues1 ++
    (env.consoleErrors.filter
        (fun e => !(ignoredJsErrorPatterns.any (fun pat => strIncludes e pat)))).map
      (fun e => (⟨"js_error", "warning", s!"JavaScript error: {e}"⟩ : Issue0))

/-- Environment of one viewport pass of `MultiViewportScanner.scanPage`.
Each `Except` field is the outcome of the corresponding browser step; an
`error` value is an exception escaping that step. -/
structure PassEnv where
  ctx : Except String Unit
  nav : Except String (Option Nat)
  navTime : Nat
  settle : Except String Unit
  vpIssues : Except String (List Issue0)
  settle2 : Except String Unit
  shot : Except String String
  detect : DetectorEnv
  reqId : Except String (Option String)
  close : Except String Unit
deriving DecidableEq, Repr, Inhabited

/-- What one viewport pass contributes to the page result. -/
structure PassOut where
  issues : List Issue
  fatal : Option String
  screenshot : Option String
  navStatus : Option (Option Nat)
  navTime : Nat
  reqIdEntry : Option String
deriving DecidableEq, Repr, Inhabited

/-- The `timeout` issue pushed by the per-pass `catch` block. -/
def timeoutIssue (mode : ViewportMode) (msg : String) : Issue :=
  ⟨⟨"timeout", "error", msg⟩, mode.name⟩

/-- Attach the pass's viewport name (`{ ...issue, viewport: mode.name }`). -/
def tagIssues (mode : ViewportMode) (l : List Issue0) : List Issue :=
  l.map (fun i => ⟨i, mode.name⟩)

/-- One viewport pass of `MultiViewportScanner.scanPage`: the body of the
`for (const mode of viewportModes)` loop, including its `try/catch`.  An
exception at any non-inner-guarded step aborts the pass, keeps the issues
pushed so far and appends the `timeout` issue; the screenshot and the two
request-id probes have their own inner guards and never abort the pass. -/
def runPass (cfg : ChecksConfig) (mode : ViewportMode) (env : PassEnv) : PassOut :=
  match env.ctx with
  | Except.error e => ⟨[timeoutIssue mode e], some e, none, none, 0, none⟩
  | Except.ok _ =>
    match env.nav with
    | Except.error e => ⟨[timeoutIssue mode e], some e, none, none, 0, none⟩
    | Except.ok resp =>
      match env.settle with
      | Except.error e => ⟨[timeoutIssue mode e], some e, none, some resp, env.navTime, none⟩
      | Except.ok _ =>
        let vp : Except String (List Issue) :=
          if cfg.viewportOverflow || cfg.horizontalScroll then
            match env.vpIssues with
            | Except.error e => Except.error e
            | Except.ok l => Except.ok (tagIssues mode l)
          else Except.ok []
        match vp with
        | Except.error e => ⟨[timeoutIssue mode e], some e, none, some resp, env.navTime, none⟩
        | Except.ok vpTagged =>
          match env.settle2 with
          | Except.error e =>
            ⟨vpTagged ++ [timeoutIssue mode e], some e, none, some resp, env.navTime, none⟩
          | Except.ok _ =>
            let shotPair : List Issue0 × Option String :=
              match env.shot with
              | Except.ok p => ([], some p)
              | Except.error m => ([⟨"screenshot_failed", "error", m⟩], none)
            let detectIssues : List Issue0 :=
              if !mode.isSpider && (cfg.jsErrors || cfg.brokenImages) then
                detectErrors resp env.detect
              else []
            let reqFromIssues : Option String :=
              ((detectIssues.filter (fun i => i.type == "request_id")).map
                (fun i => i.message.replace "Request ID: " "")).getLast?
            let reqVal : Option String :=
              match env.reqId with
              | Except.ok (some r) => if r = "" then none else some r
              | Except.ok none => none
              | Except.error _ => none
            let reqEntry : Option String :=
              match reqVal with
              | some r => some r
              | none => reqFromIssues
            let issuesSoFar :=
              vpTagged ++ tagIssues mode shotPair.1 ++ tagIssues mode detectIssues
            match env.close with
            | Except.error e =>
              ⟨issuesSoFar ++ [timeoutIssue mode e], some e, shotPair.2, some resp,
                env.navTime, reqEntry⟩
            | Except.ok _ =>
              ⟨issuesSoFar, none, shotPair.2, some resp, env.navTime, reqEntry⟩

/-- `PageResult` from `src/types.ts` (the fields the scanner computes;
`timestamp` is wall-clock time and `seo` a separate collaborator). -/
structure PageResult where
  url : String
  domain : String
  pageType : PageType
  category : String
  status : String
  screenshots : List (String × String)
  issues : List Issue
  loadTime : Nat
  httpStatus : Nat
  requestIds : List (String × String)
deriving DecidableEq, Repr, Inhabited

/-- `MultiViewportScanner.scanPage`: run the four viewport passes
sequentially, aggregate their issues in order, record load time and HTTP
status from the `pc_normal` pass (defaults 0 and 200 as initialised), and
derive `status` from the collected issues. -/
def scanPage (cfg : ChecksConfig) (url domain : String) (category : String)
    (pageType : PageType) (envs : String → PassEnv) : PageResult :=
  let outs := viewportModes.map (fun mode => (mode, runPass cfg mode (envs mode.name)))
  let issues := (outs.map (fun mo => mo.2.issues)).flatten
  let screenshots := outs.filterMap
    (fun mo => mo.2.screenshot.map (fun p => (mo.1.name, p)))
  let requestIds := outs.filterMap
    (fun mo => mo.2.reqIdEntry.map (fun r => (mo.1.name, r)))
  let navInfo : Nat × Nat :=
    match (outs.find? (fun mo => mo.1.name == "pc_normal")).bind
        (fun mo => mo.2.navStatus.map (fun resp => (mo.2.navTime, resp))) with
    | some (t, resp) => (t, resp.getD 0)
    | none => (0, 200)
  { url := url, domain := domain, pageType := pageType, category := category,
    status := if issues.any (fun i => i.severity == "error") then "error" else "success",
    screenshots := screenshots, issues := issues,
    loadTime := navInfo.1, httpStatus := navInfo.2, requestIds := requestIds }

end Enspider

namespace Enspider

/-- `status` is derived, at the end of `scanPage`, from the collected
issues. -/
theorem scanPage_status_eq (cfg : ChecksConfig) (url domain category : String)
    (pageType : PageType) (envs : String → PassEnv) :
    (scanPage cfg url domain category pageType envs).status =
      (if (scanPage cfg url domain category pageType envs).issues.any
          (fun i => i.severity == "error") then "error" else "success") := rfl

/-- The issues of `scanPage` are the concatenation, in mode order, of the
issues of the four passes. -/
theorem scanPage_issues_eq (cfg : ChecksConfig) (url domain category : String)
    (pageType : PageType) (envs : String → PassEnv) :
    (scanPage cfg url domain category pageType envs).issues =
      ((viewportModes.map (fun m => (m, runPass cfg m (envs m.name)))).map
        (fun mo => mo.2.issues)).flatten := rfl

/-- Everything a pass pushes ends up in the page result. -/
theorem scanPage_pass_issues_sub (cfg : ChecksConfig) (url domain category : String)
    (pageType : PageType) (envs : String → PassEnv) (mode : ViewportMode)
    (hmode : mode ∈ viewportModes) :
    ∀ i ∈ (runPass cfg mode (envs mode.name)).issues,
      i ∈ (scanPage cfg url domain category pageType envs).issues := by
  intro i hi
  rw [scanPage_issues_eq]
  exact List.mem_flatten.mpr ⟨(runPass cfg mode (envs mode.name)).issues,
    List.mem_map.mpr ⟨(mode, runPass cfg mode (envs mode.name)),
      List.mem_map.mpr ⟨mode, hmode, rfl⟩, rfl⟩, hi⟩

/-- **C4.** `PageResult.status` is `"error"` exactly when some collected
issue has severity `"error"`, for every environment. -/
theorem scanPage_status_iff (cfg : ChecksConfig) (url domain category : String)
    (pageType : PageType) (envs : String → PassEnv) :
    (scanPage cfg url domain category pageType envs).status = "error" ↔
      ∃ i ∈ (scanPage cfg url domain category pageType envs).issues,
        i.severity = "error" := by
  rw [scanPage_status_eq]
  by_cases h : (scanPage cfg url domain category pageType envs).issues.any
      (fun i => i.severity == "error")
  · rw [if_pos h]
    constructor
    · intro _
      obtain ⟨i, hi, hb⟩ := List.any_eq_true.mp h
      exact ⟨i, hi, by simpa using hb⟩
    · intro _
      rfl
  · rw [if_neg h]
    constructor
    · intro hcon
      exact absurd hcon (by decide)
    · rintro ⟨i, hi, hsev⟩
      exact absurd (List.any_eq_true.mpr ⟨i, hi, by simpa using hsev⟩) h

theorem runPass_fatal_timeout (cfg : ChecksConfig) (mode : ViewportMode) (env : PassEnv)
    (msg : String) (h : (runPass cfg mode env).fatal = some msg) :
    timeoutIssue mode msg ∈ (runPass cfg mode env).issues := by
  revert h
  unfold runPass
  cases env.ctx with
  | error e => intro h; simp_all
  | ok u =>
    cases env.nav with
    | error e => intro h; simp_all
    | ok resp =>
      cases env.settle with
      | error e => intro h; simp_all
      | ok u2 =>
        by_cases hg : (cfg.viewportOverflow || cfg.horizontalScroll) = true
        · rw [if_pos hg]
          cases env.vpIssues with
          | error e => intro h; simp_all
          | ok l =>
            cases env.settle2 with
            | error e => intro h; simp_all
            | ok u3 =>
              cases env.close with
              | error e => intro h; simp_all
              | ok u4 => intro h; simp_all
        · rw [if_neg hg]
          cases env.settle2 with
          | error e => intro h; simp_all
          | ok u3 =>
            cases env.close with
            | error e => intro h; simp_all
            | ok u4 => intro h; simp_all

end Enspider

namespace Enspider

/-- **C5.** A fatal failure in one viewport pass is recorded as a `timeout`
error issue attributed to that viewport, and every pass's own issues still
appear in the page result: the passes are isolated. -/
theorem scanPage_pass_isolation (cfg : ChecksConfig) (url domain category : String)
    (pageType : PageType) (envs : String → PassEnv) (mode : ViewportMode)
    (msg : String) (hmode : mode ∈ viewportModes)
    (hfatal : (runPass cfg mode (envs mode.name)).fatal = some msg) :
    timeoutIssue mode msg ∈ (scanPage cfg url domain category pageType envs).issues ∧
      ∀ mode' ∈ viewportModes, ∀ i ∈ (runPass cfg mode' (envs mode'.name)).issues,
        i ∈ (scanPage cfg url domain category pageType envs).issues := by
  constructor
  · exact scanPage_pass_issues_sub cfg url domain category pageType envs mode hmode
      (timeoutIssue mode msg)
      (runPass_fatal_timeout cfg mode (envs mode.name) msg hfatal)
  · intro mode' hm' i hi
    exact scanPage_pass_issues_sub cfg url domain category pageType envs mode' hm' i hi

def w5cfg : ChecksConfig := ⟨true, true, true, true⟩

def w5det : DetectorEnv := ⟨[], Except.ok ⟨[], [], none⟩⟩

def w5envOk : PassEnv :=
  ⟨Except.ok (), Except.ok (some 200), 120, Except.ok (), Except.ok [],
   Except.ok (), Except.ok "shot.png", w5det, Except.ok none, Except.ok ()⟩

def w5envBad : PassEnv := { w5envOk with nav := Except.error "Timeout 30000ms exceeded" }

def w5envs : String → PassEnv :=
  fun name => if name == "pc_spider" then w5envBad else w5envOk

theorem scanPage_pass_isolation_witness :
    ((⟨"pc_spider", true⟩ : ViewportMode) ∈ viewportModes ∧
      (runPass w5cfg ⟨"pc_spider", true⟩ (w5envs "pc_spider")).fatal =
        some "Timeout 30000ms exceeded") ∧
    (timeoutIssue ⟨"pc_spider", true⟩ "Timeout 30000ms exceeded" ∈
        (scanPage w5cfg "https://e.com/" "e.com" "home" PageType.other w5envs).issues ∧
      ∀ mode' ∈ viewportModes,
        ∀ i ∈ (runPass w5cfg mode' (w5envs mode'.name)).issues,
          i ∈ (scanPage w5cfg "https://e.com/" "e.com" "home" PageType.other w5envs).issues) :=
  ⟨⟨by decide, by decide⟩,
    scanPage_pass_isolation w5cfg "https://e.com/" "e.com" "home" PageType.other w5envs
      ⟨"pc_spider", true⟩ "Timeout 30000ms exceeded" (by decide) (by decide)⟩

end Enspider

namespace Enspider

theorem detectErrors_http_mem (h : Nat) (env : DetectorEnv)
    (hh : h ≠ 0 ∧ h ≠ 200 ∧ h ≠ 304) :
    (⟨"http_error", "error", s!"HTTP status code {h} (expected 200 or 304)"⟩ : Issue0) ∈
      detectErrors (some h) env := by
  unfold detectErrors
  dsimp only
  refine List.mem_append.mpr (Or.inl ?_)
  repeat' split
  all_goals simp_all

theorem runPass_detect_mem (cfg : ChecksConfig) (mode : ViewportMode) (env : PassEnv)
    (resp : Option Nat) (i : Issue0)
    (hspider : mode.isSpider = false)
    (hchecks : (cfg.jsErrors || cfg.brokenImages) = true)
    (hctx : env.ctx = Except.ok ())
    (hnav : env.nav = Except.ok resp)
    (hsettle : env.settle = Except.ok ())
    (hvp : ∃ l, env.vpIssues = Except.ok l)
    (hsettle2 : env.settle2 = Except.ok ())
    (hi : i ∈ detectErrors resp env.detect) :
    (⟨i, mode.name⟩ : Issue) ∈ (runPass cfg mode env).issues := by
  obtain ⟨l, hvp⟩ := hvp
  have hmem : (⟨i, mode.name⟩ : Issue) ∈ tagIssues mode (detectErrors resp env.detect) :=
    List.mem_map.mpr ⟨i, hi, rfl⟩
  unfold runPass
  rw [hctx, hnav, hsettle, hvp, hsettle2]
  dsimp only
  by_cases hg : (cfg.viewportOverflow || cfg.horizontalScroll) = true
  · rw [if_pos hg]
    dsimp only
    repeat' split
    all_goals simp_all [tagIssues]
  · rw [if_neg hg]
    dsimp only
    repeat' split
    all_goals simp_all [tagIssues]

end Enspider

namespace Enspider

/-- **C10.** On a non-spider pass with the detector enabled, a navigation
HTTP status other than 200/304 (and other than the falsy 0) yields an
`http_error` issue of severity `error` for that viewport, and the page's
overall status becomes `"error"`. -/
theorem scanPage_http_error (cfg : ChecksConfig) (url domain category : String)
    (pageType : PageType) (envs : String → PassEnv) (mode : ViewportMode) (h : Nat)
    (hmode : mode ∈ viewportModes) (hspider : mode.isSpider = false)
    (hchecks : (cfg.jsErrors || cfg.brokenImages) = true)
    (hh0 : h ≠ 0) (hh200 : h ≠ 200) (hh304 : h ≠ 304)
    (hctx : (envs mode.name).ctx = Except.ok ())
    (hnav : (envs mode.name).nav = Except.ok (some h))
    (hsettle : (envs mode.name).settle = Except.ok ())
    (hvp : ∃ l, (envs mode.name).vpIssues = Except.ok l)
    (hsettle2 : (envs mode.name).settle2 = Except.ok ()) :
    (⟨⟨"http_error", "error", s!"HTTP status code {h} (expected 200 or 304)"⟩, mode.name⟩ : Issue)
        ∈ (scanPage cfg url domain category pageType envs).issues ∧
      (scanPage cfg url domain category pageType envs).status = "error" := by
  have hdet := detectErrors_http_mem h (envs mode.name).detect ⟨hh0, hh200, hh304⟩
  have hrun := runPass_detect_mem cfg mode (envs mode.name) (some h) _ hspider hchecks hctx
    hnav hsettle hvp hsettle2 hdet
  have hmemPage := scanPage_pass_issues_sub cfg url domain category pageType envs mode hmode
    _ hrun
  refine ⟨hmemPage, ?_⟩
  rw [scanPage_status_eq]
  exact if_pos (List.any_eq_true.mpr ⟨_, hmemPage, rfl⟩)

def w10cfg : ChecksConfig := ⟨false, false, true, true⟩

def w10det : DetectorEnv := ⟨[], Except.ok ⟨[], [], none⟩⟩

def w10env : PassEnv :=
  ⟨Except.ok (), Except.ok (some 404), 80, Except.ok (), Except.ok [],
   Except.ok (), Except.ok "m.png", w10det, Except.ok none, Except.ok ()⟩

def w10envs : String → PassEnv := fun _ => w10env

def w10mode : ViewportMode := ⟨"mobile_normal", false⟩

theorem scanPage_http_error_witness :
    (w10mode ∈ viewportModes ∧ w10mode.isSpider = false ∧
      (w10cfg.jsErrors || w10cfg.brokenImages) = true ∧
      (404 : Nat) ≠ 0 ∧ (404 : Nat) ≠ 200 ∧ (404 : Nat) ≠ 304 ∧
      (w10envs w10mode.name).ctx = Except.ok () ∧
      (w10envs w10mode.name).nav = Except.ok (some 404) ∧
      (w10envs w10mode.name).settle = Except.ok () ∧
      (∃ l, (w10envs w10mode.name).vpIssues = Except.ok l) ∧
      (w10envs w10mode.name).settle2 = Except.ok ()) ∧
    ((⟨⟨"http_error", "error", "HTTP status code 404 (expected 200 or 304)"⟩,
          w10mode.name⟩ : Issue)
        ∈ (scanPage w10cfg "https://e.com/p" "e.com" "news" PageType.other w10envs).issues ∧
      (scanPage w10cfg "https://e.com/p" "e.com" "news" PageType.other w10envs).status =
        "error") :=
  ⟨⟨by decide, rfl, rfl, by decide, by decide, by decide, rfl, rfl, rfl, ⟨[], rfl⟩, rfl⟩,
    scanPage_http_error w10cfg "https://e.com/p" "e.com" "news" PageType.other w10envs
      w10mode 404 (by decide) rfl rfl (by decide) (by decide) (by decide) rfl rfl rfl
      ⟨[], rfl⟩ rfl⟩

end Enspider
